import Mathlib

/-!
# Mython runtime, evaluator and lexer

A shallow embedding of `src/mython/runtime.cpp`, `src/mython/statement.cpp` and
`src/mython/lexer.cpp`.

* An `ObjectHolder` is a (possibly empty) shared pointer to a runtime object.  `Bool`,
  `Number`, `String` and `Class` objects are never mutated, so a holder of one of them is
  modelled by the object's value.  A `ClassInstance` object is mutable (its `fields_`), so a
  holder of one is modelled by the address `self` of the object together with its class
  `cls_` (set once by the constructor, never changed).  The `fields_` of every instance are
  kept in the `Context`, keyed by address.
* C++ exceptions and undefined behaviour are modelled by `Abort`; every function returns the
  state it reached, also when it aborts.
* The evaluator is recursive through method calls and need not terminate; `Execute` takes a
  fuel argument that bounds the nesting depth of `Execute` calls.
* The value of a `Number` is an `int` (the type of the number token in `lexer.h`), taken
  as 32 bits: an integer from -2147483648 to 2147483647, carried in an `Int`.  The results
  of `+`, `-` and `*` are reduced into that range (`toInt`), as the built code computes
  them; a quotient outside it (-2147483648 / -1) is undefined behaviour.  `std::string`
  values are modelled as `String` (the order of `std::string` is the lexicographic order of
  its characters).
* In `a = b` the right operand is evaluated before the left one, and the object expression
  of a member call before the arguments of the call (the order C++17 fixes).  The order of
  the arguments of one call is not fixed: `ComparisonExecute` takes it as a parameter, and
  `Execute` follows the built code, which evaluates the last argument first.
* The lexer reads a `std::istream`, modelled by the characters read, the characters left and
  the state bits `failbit` and `eofbit`; a `get` that fails leaves its variable as it was.
  Comparing a `char` that was never given a value is undefined behaviour.  The loops over the
  input are bounded by the number of characters left; `GetTokenFromIstream` takes a fuel
  argument that bounds the depth of its recursion.
-/

namespace mython

/-! ## Data model -/

/-- The largest `int` (32 bits are taken for `int`). -/
def INT_MAX : Int := 2147483647

/-- Whether an integer is the value of an `int`. -/
def fitsInt (value : Int) : Bool :=
  decide (-INT_MAX - 1 ≤ value ∧ value ≤ INT_MAX)

/-- The `int` that the built code computes for an arithmetic result: the result itself when
it fits, else the `int` that differs from it by a multiple of 2^32. -/
def toInt (value : Int) : Int :=
  (value + (INT_MAX + 1)) % (2 * (INT_MAX + 1)) - (INT_MAX + 1)

/-- The six comparison functions of `runtime.cpp` that a `Comparison` node can hold. -/
inductive Comparator
  | Equal
  | NotEqual
  | Less
  | Greater
  | LessOrEqual
  | GreaterOrEqual

mutual
/-- A holder of a runtime object; `None` is the empty holder (`data_ == nullptr`).  The
value of a `Number` is an `int`: an integer for which `fitsInt` holds. -/
inductive ObjectHolder
  | None
  | Bool (value : Bool)
  | Number (value : Int)
  | String (value : String)
  | Class (cls : Class)
  | ClassInstance (self : Nat) (cls : Class)
/-- A class: `name_`, `methods_`, `parent_` (`none` is `nullptr`). -/
inductive Class
  | mk (name : String) (methods : List Method) (parent : Option Class)
/-- A method: `name`, `formal_params`, `body` (`none` is a null `body`). -/
inductive Method
  | mk (name : String) (formal_params : List String) (body : Option Statement)
/-- The syntax-tree nodes of `statement.cpp`.  A `NewInstance` node owns the member object
`new_instance_`; `new_instance` is the address of that member and `cls` its class. -/
inductive Statement
  | Assignment (var : String) (rv : Statement)
  | VariableValue (dotted_ids : List String)
  | Print (args : List Statement)
  | MethodCall (object : Statement) (method : String) (args : List Statement)
  | Stringify (arg : Statement)
  | Add (lhs rhs : Statement)
  | Sub (lhs rhs : Statement)
  | Mult (lhs rhs : Statement)
  | Div (lhs rhs : Statement)
  | Compound (args : List Statement)
  | Return (statement : Statement)
  | ClassDefinition (cls : ObjectHolder)
  | FieldAssignment (object : List String) (field_name : String) (rv : Statement)
  | IfElse (condition if_body : Statement) (else_body : Option Statement)
  | Or (lhs rhs : Statement)
  | And (lhs rhs : Statement)
  | Not (arg : Statement)
  | Comparison (cmp : Comparator) (lhs rhs : Statement)
  | NewInstance (new_instance : Nat) (cls : Class) (args : List Statement)
  | MethodBody (body : Statement)
end

def Method.name : Method → String
  | .mk n _ _ => n

def Method.formal_params : Method → List String
  | .mk _ ps _ => ps

def Method.body : Method → Option Statement
  | .mk _ _ b => b

def Class.name : Class → String
  | .mk n _ _ => n

def Class.methods : Class → List Method
  | .mk _ ms _ => ms

def Class.parent : Class → Option Class
  | .mk _ _ p => p

/-- First value stored under `key` in an association list. -/
def lookup {κ α : Type} [DecidableEq κ] (key : κ) : List (κ × α) → Option α
  | [] => none
  | (k, v) :: rest => if k = key then some v else lookup key rest

/-- The map after `m[key] = v`: the entry of `key` is replaced, or added when absent. -/
def assign {κ α : Type} [DecidableEq κ] (key : κ) (v : α) : List (κ × α) → List (κ × α)
  | [] => [(key, v)]
  | (k, x) :: rest => if k = key then (k, v) :: rest else (k, x) :: assign key v rest

/-- A closure, `std::unordered_map<std::string, ObjectHolder>`. -/
abbrev Closure := List (String × ObjectHolder)

/-- The state outside the current closure: the text written to the output stream and the
`fields_` closure of every `ClassInstance` object, by address. -/
structure Context where
  output : String
  fields : List (Nat × Closure)

/-- The `fields_` of the instance at address `self`; empty until something is stored. -/
def Fields (context : Context) (self : Nat) : Closure :=
  (lookup self context.fields).getD []

/-- Ways in which a call does not return normally. -/
inductive Abort
  | ReturnExcept (answer : ObjectHolder)
  | runtime_error (what : String)
  | undefined_behaviour
  | out_of_fuel

inductive Outcome (α : Type)
  | ok (value : α)
  | abort (e : Abort)

/-- A computation over a state `σ`; the state reached is returned in every case. -/
abbrev Run (σ α : Type) := σ → Outcome α × σ

def Run.ret {σ α : Type} (a : α) : Run σ α :=
  fun s => (.ok a, s)

def Run.fail {σ α : Type} (e : Abort) : Run σ α :=
  fun s => (.abort e, s)

def Run.andThen {σ α β : Type} (m : Run σ α) (f : α → Run σ β) : Run σ β :=
  fun s =>
    match m s with
    | (.ok a, s1) => f a s1
    | (.abort e, s1) => (.abort e, s1)

/-- A computation on the context, run inside a statement (the closure is untouched). -/
def Run.lift {α : Type} (m : Run Context α) : Run (Closure × Context) α :=
  fun s =>
    match m s.2 with
    | (o, context) => (o, (s.1, context))

/-- The executor of sub-statements: `Statement::Execute(closure, context)`. -/
abbrev Executor := Statement → Run (Closure × Context) ObjectHolder

/-! ## runtime.cpp -/

def IsTrue (object : ObjectHolder) : Bool :=
  match object with
  | .None => false
  | .Number value => !(value == 0)
  | .String value => !(value == "")
  | .Bool value => value
  | .Class _ => false
  | .ClassInstance _ _ => false

/-- The loop of `Class::GetMethod` over `methods_`. -/
def findMethod (name : String) : List Method → Option Method
  | [] => none
  | method :: rest => if method.name = name then some method else findMethod name rest

def Class.GetMethod : Class → String → Option Method
  | .mk _ methods parent, name =>
    match findMethod name methods with
    | some method => some method
    | none =>
      match parent with
      | none => none
      | some p => p.GetMethod name

def ClassInstance.HasMethod (cls : Class) (method : String) (argument_count : Nat) : Bool :=
  match cls.GetMethod method with
  | some meth => meth.formal_params.length == argument_count
  | none => false

/-- The loop of `ClassInstance::Call` that stores the actual arguments in `function_args`. -/
def bindArgs : List String → List ObjectHolder → Closure → Closure
  | p :: ps, a :: as, function_args =>
    if p = "self" then bindArgs ps as function_args
    else bindArgs ps as (assign p a function_args)
  | _, _, function_args => function_args

/-- The closure `function_args` that `ClassInstance::Call` hands to the method body. -/
def callClosure (self : Nat) (cls : Class) (meth : Method) (actual_args : List ObjectHolder) :
    Closure :=
  bindArgs meth.formal_params actual_args (assign "self" (.ClassInstance self cls) [])

def ClassInstance.Call (E : Executor) (self : Nat) (cls : Class) (method : String)
    (actual_args : List ObjectHolder) : Run Context ObjectHolder :=
  fun context =>
    if !ClassInstance.HasMethod cls method actual_args.length then
      (.abort (.runtime_error "Not implemented"), context)
    else
      match cls.GetMethod method with
      | none => (.abort .undefined_behaviour, context)
      | some meth =>
        match meth.body with
        | some body =>
          match E body (callClosure self cls meth actual_args, context) with
          | (o, s) => (o, s.2)
        | none => (.abort (.runtime_error "Not implemented"), context)

/-- The text `os << this` writes for the instance at address `self`. -/
def pointerText (self : Nat) : String :=
  "0x" ++ String.mk (Nat.toDigits 16 self)

/-- Modelled from the spec: the `Print` of a `Number` object is declared in `runtime.h`, which
is not among the sources; a `Number` prints its literal value, in decimal. -/
def printNumber (value : Int) : String :=
  toString value

/-- Modelled from the spec: the `Print` of a `String` object is declared in `runtime.h`, which
is not among the sources; a `String` prints its literal value. -/
def printString (value : String) : String :=
  value

/-- The text `object->Print(os, context)` writes to `os`; calling it through an empty holder
is undefined.  The fuel bounds the chain of `__str__` results that are themselves
instances. -/
def Print (E : Executor) : Nat → ObjectHolder → Run Context String
  | _, .None => Run.fail .undefined_behaviour
  | _, .Bool value => Run.ret (if value then "True" else "False")
  | _, .Number value => Run.ret (printNumber value)
  | _, .String value => Run.ret (printString value)
  | _, .Class cls => Run.ret ("Class " ++ cls.name)
  | 0, .ClassInstance _ _ => Run.fail .out_of_fuel
  | fuel + 1, .ClassInstance self cls =>
    if ClassInstance.HasMethod cls "__str__" 0 then
      (ClassInstance.Call E self cls "__str__" []).andThen (Print E fuel)
    else
      Run.ret (pointerText self)

def Equal (E : Executor) (lhs rhs : ObjectHolder) : Run Context Bool :=
  match lhs, rhs with
  | .Bool l, .Bool r => Run.ret (decide (l = r))
  | .Number l, .Number r => Run.ret (decide (l = r))
  | .String l, .String r => Run.ret (decide (l = r))
  | .ClassInstance self cls, .ClassInstance _ _ =>
    if ClassInstance.HasMethod cls "__eq__" 1 then
      (ClassInstance.Call E self cls "__eq__" [rhs]).andThen fun result =>
        match result with
        | .Bool value => Run.ret value
        | _ => Run.fail .undefined_behaviour
    else
      Run.fail (.runtime_error "Cannot compare objects for equality")
  | .None, .None => Run.ret true
  | _, _ => Run.fail (.runtime_error "Cannot compare objects for equality")

def NotEqual (E : Executor) (lhs rhs : ObjectHolder) : Run Context Bool :=
  (Equal E lhs rhs).andThen fun r => Run.ret (!r)

def Less (E : Executor) (lhs rhs : ObjectHolder) : Run Context Bool :=
  match lhs, rhs with
  | .Bool l, .Bool r => Run.ret (decide (l < r))
  | .Number l, .Number r => Run.ret (decide (l < r))
  | .String l, .String r => Run.ret (decide (l < r))
  | .ClassInstance self cls, r =>
    match r with
    | .None => Run.fail (.runtime_error "Cannot compare objects for less")
    | _ =>
      if ClassInstance.HasMethod cls "__lt__" 1 then
        (ClassInstance.Call E self cls "__lt__" [rhs]).andThen fun result =>
          match result with
          | .Bool value => Run.ret value
          | _ => Run.fail .undefined_behaviour
      else
        Run.fail (.runtime_error "Cannot compare objects for less")
  | _, _ => Run.fail (.runtime_error "Cannot compare objects for less")

def GreaterOrEqual (E : Executor) (lhs rhs : ObjectHolder) : Run Context Bool :=
  (Less E lhs rhs).andThen fun r => Run.ret (!r)

def Greater (E : Executor) (lhs rhs : ObjectHolder) : Run Context Bool :=
  (GreaterOrEqual E lhs rhs).andThen fun ge =>
    if ge then NotEqual E lhs rhs else Run.ret false

def LessOrEqual (E : Executor) (lhs rhs : ObjectHolder) : Run Context Bool :=
  (Greater E lhs rhs).andThen fun r => Run.ret (!r)

/-- The call `cmp_(lhs, rhs, context)` of a `Comparison` node. -/
def applyComparator (cmp : Comparator) (E : Executor) (lhs rhs : ObjectHolder) :
    Run Context Bool :=
  match cmp with
  | .Equal => Equal E lhs rhs
  | .NotEqual => NotEqual E lhs rhs
  | .Less => Less E lhs rhs
  | .Greater => Greater E lhs rhs
  | .LessOrEqual => LessOrEqual E lhs rhs
  | .GreaterOrEqual => GreaterOrEqual E lhs rhs

/-! ## statement.cpp -/

/-- The instance at `self` after `Fields()[key] = value`. -/
def setField (context : Context) (self : Nat) (key : String) (value : ObjectHolder) :
    Context :=
  ⟨context.output, assign self (assign key value (Fields context self)) context.fields⟩

/-- Appends `text` to the output stream of the context. -/
def write (text : String) : Run (Closure × Context) Unit :=
  fun s => (.ok (), (s.1, ⟨s.2.output ++ text, s.2.fields⟩))

/-- Runs the statements in order and collects their values. -/
def ExecuteAll (E : Executor) : List Statement → Run (Closure × Context) (List ObjectHolder)
  | [] => Run.ret []
  | arg :: rest =>
    (E arg).andThen fun value =>
      (ExecuteAll E rest).andThen fun values => Run.ret (value :: values)

/-- `VariableValue::Execute`: the closure is only read (the recursive call runs on the
`Fields()` of the instance the first identifier is bound to). -/
def VariableValueExecute (context : Context) : List String → Closure → Outcome ObjectHolder
  | [], _ => .abort .undefined_behaviour
  | [id], closure =>
    match lookup id closure with
    | none => .abort (.runtime_error "")
    | some value => .ok value
  | id :: next :: rest, closure =>
    match lookup id closure with
    | none => .abort (.runtime_error "")
    | some (.ClassInstance self _) =>
      VariableValueExecute context (next :: rest) (Fields context self)
    | some _ => .abort .undefined_behaviour

/-- Writes one `Print` argument: `None` for an empty holder, else `result->Print(...)`. -/
def printArgument (E : Executor) (fuel : Nat) (result : ObjectHolder) :
    Run (Closure × Context) Unit :=
  match result with
  | .None => write "None"
  | _ => (Run.lift (Print E fuel result)).andThen write

/-- The loop of `Print::Execute` over the arguments after the first. -/
def printRest (E : Executor) (fuel : Nat) : List Statement → Run (Closure × Context) Unit
  | [] => Run.ret ()
  | arg :: rest =>
    (write " ").andThen fun _ =>
      (E arg).andThen fun result_in_vector =>
        (printArgument E fuel result_in_vector).andThen fun _ => printRest E fuel rest

def TryAsNumber : ObjectHolder → Option Int
  | .Number value => some value
  | _ => none

def TryAsString : ObjectHolder → Option String
  | .String value => some value
  | _ => none

/-- The condition `lhs_->Execute(..).TryAs<T>() && rhs_->Execute(..).TryAs<T>()`: the right
operand is executed only when the left one has the type. -/
def bothAre (E : Executor) (is : ObjectHolder → Bool) (lhs rhs : Statement) :
    Run (Closure × Context) Bool :=
  (E lhs).andThen fun l =>
    if is l then (E rhs).andThen fun r => Run.ret (is r) else Run.ret false

/-- The branch of `Sub`, `Mult`, `Div` (and `Add`) taken when both operands are numbers: both
operands are executed again and `op` is applied to the values. -/
def numberBranch (E : Executor) (op : Int → Int → Outcome ObjectHolder) (lhs rhs : Statement) :
    Run (Closure × Context) ObjectHolder :=
  (E lhs).andThen fun l =>
    match TryAsNumber l with
    | none => Run.fail .undefined_behaviour
    | some num1 =>
      (E rhs).andThen fun r =>
        match TryAsNumber r with
        | none => Run.fail .undefined_behaviour
        | some num2 => fun s => (op num1 num2, s)

/-- The body shared by `Sub::Execute`, `Mult::Execute` and `Div::Execute`. -/
def numberOperation (E : Executor) (op : Int → Int → Outcome ObjectHolder)
    (lhs rhs : Statement) : Run (Closure × Context) ObjectHolder :=
  (bothAre E (fun o => (TryAsNumber o).isSome) lhs rhs).andThen fun numbers =>
    if numbers then numberBranch E op lhs rhs else Run.fail (.runtime_error "")

/-- The division of `Div::Execute`: a zero divisor is reported by an exception; `/` on
`int` truncates toward zero, and a quotient that is no `int` is undefined. -/
def divide (num1 num2 : Int) : Outcome ObjectHolder :=
  if num2 = 0 then .abort (.runtime_error "")
  else if fitsInt (Int.tdiv num1 num2) then .ok (.Number (Int.tdiv num1 num2))
  else .abort .undefined_behaviour

/-- The order in which the built code evaluates the arguments of one call: the last
argument first.  (C++ leaves the order open.) -/
def LAST_ARGUMENT_FIRST : Bool := true

/-- `Comparison::Execute`, with the executor `E` of the operands.  Both operands are
arguments of the one call `cmp_(lhs_->Execute(..), rhs_->Execute(..), context)`; the order in
which they are executed is the parameter `rhs_first`. -/
def ComparisonExecute (rhs_first : Bool) (E : Executor) (cmp : Comparator)
    (lhs rhs : Statement) : Run (Closure × Context) ObjectHolder :=
  if rhs_first then
    (E rhs).andThen fun r =>
      (E lhs).andThen fun l =>
        (Run.lift (applyComparator cmp E l r)).andThen fun result => Run.ret (.Bool result)
  else
    (E lhs).andThen fun l =>
      (E rhs).andThen fun r =>
        (Run.lift (applyComparator cmp E l r)).andThen fun result => Run.ret (.Bool result)

def Execute : Nat → Statement → Run (Closure × Context) ObjectHolder
  | 0, _ => Run.fail .out_of_fuel
  | fuel + 1, stmt =>
    match stmt with
    | .Assignment var rv =>
      (Execute fuel rv).andThen fun val =>
        fun s => (.ok val, (assign var val s.1, s.2))
    | .VariableValue dotted_ids =>
      fun s => (VariableValueExecute s.2 dotted_ids s.1, s)
    | .Print args =>
      match args with
      | [] => (write "\n").andThen fun _ => Run.ret .None
      | first :: rest =>
        (Execute fuel first).andThen fun result =>
          (printArgument (Execute fuel) fuel result).andThen fun _ =>
            (printRest (Execute fuel) fuel rest).andThen fun _ =>
              (write "\n").andThen fun _ => Run.ret result
    | .MethodCall object method args =>
      (ExecuteAll (Execute fuel) args).andThen fun actual_args =>
        (Execute fuel object).andThen fun target =>
          match target with
          | .ClassInstance self cls =>
            Run.lift (ClassInstance.Call (Execute fuel) self cls method actual_args)
          | _ => Run.fail .undefined_behaviour
    | .Stringify arg =>
      (Execute fuel arg).andThen fun probe =>
        match probe with
        | .None => Run.ret (.String "None")
        | _ =>
          (Execute fuel arg).andThen fun again =>
            (Run.lift (Print (Execute fuel) fuel again)).andThen fun text =>
              Run.ret (.String text)
    | .Add lhs rhs =>
      (bothAre (Execute fuel) (fun o => (TryAsNumber o).isSome) lhs rhs).andThen fun numbers =>
        if numbers then
          numberBranch (Execute fuel) (fun num1 num2 => .ok (.Number (toInt (num1 + num2))))
            lhs rhs
        else
          (bothAre (Execute fuel) (fun o => (TryAsString o).isSome) lhs rhs).andThen
            fun strings =>
              if strings then
                (Execute fuel lhs).andThen fun l =>
                  match TryAsString l with
                  | none => Run.fail .undefined_behaviour
                  | some str1 =>
                    (Execute fuel rhs).andThen fun r =>
                      match TryAsString r with
                      | none => Run.fail .undefined_behaviour
                      | some str2 => Run.ret (.String (str1 ++ str2))
              else
                (Execute fuel lhs).andThen fun probe =>
                  match probe with
                  | .ClassInstance _ _ =>
                    (Execute fuel lhs).andThen fun holder =>
                      match holder with
                      | .ClassInstance _ cls =>
                        if ClassInstance.HasMethod cls "__add__" 1 then
                          (Execute fuel lhs).andThen fun target =>
                            match target with
                            | .ClassInstance self tcls =>
                              (Execute fuel rhs).andThen fun argument =>
                                Run.lift
                                  (ClassInstance.Call (Execute fuel) self tcls "__add__"
                                    [argument])
                            | _ => Run.fail .undefined_behaviour
                        else Run.fail (.runtime_error "")
                      | _ => Run.fail .undefined_behaviour
                  | _ => Run.fail (.runtime_error "")
    | .Sub lhs rhs =>
      numberOperation (Execute fuel) (fun num1 num2 => .ok (.Number (toInt (num1 - num2))))
        lhs rhs
    | .Mult lhs rhs =>
      numberOperation (Execute fuel) (fun num1 num2 => .ok (.Number (toInt (num1 * num2))))
        lhs rhs
    | .Div lhs rhs =>
      numberOperation (Execute fuel) divide lhs rhs
    | .Compound args =>
      (ExecuteAll (Execute fuel) args).andThen fun _ => Run.ret .None
    | .Return statement =>
      (Execute fuel statement).andThen fun result => Run.fail (.ReturnExcept result)
    | .ClassDefinition cls =>
      match cls with
      | .Class c => fun s => (.ok cls, (assign c.name cls s.1, s.2))
      | _ => Run.fail .undefined_behaviour
    | .FieldAssignment object field_name rv =>
      fun s =>
        match VariableValueExecute s.2 object s.1 with
        | .abort e => (.abort e, s)
        | .ok (.ClassInstance _ _) =>
          ((Execute fuel rv).andThen fun value =>
            fun s1 =>
              match VariableValueExecute s1.2 object s1.1 with
              | .abort e => (.abort e, s1)
              | .ok (.ClassInstance self _) =>
                let stored := setField s1.2 self field_name value
                match VariableValueExecute stored object s1.1 with
                | .abort e => (.abort e, (s1.1, stored))
                | .ok (.ClassInstance last _) =>
                  match lookup field_name (Fields stored last) with
                  | some held => (.ok held, (s1.1, stored))
                  | none => (.ok .None, (s1.1, setField stored last field_name .None))
                | .ok _ => (.abort .undefined_behaviour, (s1.1, stored))
              | .ok _ => (.abort .undefined_behaviour, s1)) s
        | .ok _ => (.abort (.runtime_error ""), s)
    | .IfElse condition if_body else_body =>
      (Execute fuel condition).andThen fun c =>
        if IsTrue c then Execute fuel if_body
        else
          match else_body with
          | some body => Execute fuel body
          | none => Run.ret .None
    | .Or lhs rhs =>
      (Execute fuel lhs).andThen fun l =>
        if IsTrue l then Run.ret (.Bool true)
        else (Execute fuel rhs).andThen fun r => Run.ret (.Bool (IsTrue r))
    | .And lhs rhs =>
      (Execute fuel lhs).andThen fun l =>
        if !IsTrue l then Run.ret (.Bool false)
        else (Execute fuel rhs).andThen fun r => Run.ret (.Bool (IsTrue r))
    | .Not arg =>
      (Execute fuel arg).andThen fun value => Run.ret (.Bool (!IsTrue value))
    | .Comparison cmp lhs rhs =>
      ComparisonExecute LAST_ARGUMENT_FIRST (Execute fuel) cmp lhs rhs
    | .NewInstance new_instance cls args =>
      if ClassInstance.HasMethod cls "__init__" args.length then
        (ExecuteAll (Execute fuel) args).andThen fun actual_args =>
          (Run.lift (ClassInstance.Call (Execute fuel) new_instance cls "__init__"
            actual_args)).andThen fun _ => Run.ret (.ClassInstance new_instance cls)
      else
        Run.ret (.ClassInstance new_instance cls)
    | .MethodBody body =>
      fun s =>
        match Execute fuel body s with
        | (.abort (.ReturnExcept answer), s1) => (.ok answer, s1)
        | (.ok _, s1) => (.ok .None, s1)
        | (.abort e, s1) => (.abort e, s1)

/-! ## Vocabulary of the statements below -/

/-- The class followed by its ancestors, nearest first. -/
def Class.chain : Class → List Class
  | .mk name methods parent =>
    (.mk name methods parent) ::
      match parent with
      | none => []
      | some p => p.chain

/-- A holder of a `Bool`, `Number` or `String`. -/
def isScalar : ObjectHolder → Bool
  | .Bool _ => true
  | .Number _ => true
  | .String _ => true
  | _ => false

/-- Both holders are scalars of one variant. -/
def sameScalar : ObjectHolder → ObjectHolder → Bool
  | .Bool _, .Bool _ => true
  | .Number _, .Number _ => true
  | .String _, .String _ => true
  | _, _ => false

/-- The pairs `Equal` has a branch for: both empty, both scalars of one variant, or both
instances where the class of the left one has a one-argument `__eq__`. -/
def equalDispatches : ObjectHolder → ObjectHolder → Bool
  | .None, .None => true
  | .ClassInstance _ cls, .ClassInstance _ _ => ClassInstance.HasMethod cls "__eq__" 1
  | lhs, rhs => sameScalar lhs rhs

/-- An instance whose class chain has a one-argument `__lt__`. -/
def hasLess : ObjectHolder → Bool
  | .ClassInstance _ cls => ClassInstance.HasMethod cls "__lt__" 1
  | _ => false

/-- The exception thrown by `Equal`. -/
def equalityError : Abort :=
  .runtime_error "Cannot compare objects for equality"

/-- The exception thrown by `Less`. -/
def lessError : Abort :=
  .runtime_error "Cannot compare objects for less"

/-- The call ended with a `std::runtime_error`. -/
def isError {α : Type} : Outcome α → Bool
  | .abort (.runtime_error _) => true
  | _ => false

/-- One level of nesting around a statement: a place in a `Compound`, the `if` branch or the
`else` branch of an `IfElse`. -/
inductive Nesting
  | inCompound (before after : List Statement)
  | inIfBody (condition : Statement) (else_body : Option Statement)
  | inElseBody (condition if_body : Statement)

def Nesting.fill : Nesting → Statement → Statement
  | .inCompound before after, inner => .Compound (before ++ inner :: after)
  | .inIfBody condition else_body, inner => .IfElse condition inner else_body
  | .inElseBody condition if_body, inner => .IfElse condition if_body (some inner)

/-- The statement `inner` under the given levels of nesting, outermost first. -/
def nest : List Nesting → Statement → Statement
  | [], inner => inner
  | level :: levels, inner => level.fill (nest levels inner)

/-- The state in which the nested statement starts: the statements before it in the
`Compound` have completed normally, or the condition has selected its branch. -/
def Nesting.enter (E : Executor) : Nesting → Closure × Context → Option (Closure × Context)
  | .inCompound before _, s =>
    match ExecuteAll E before s with
    | (.ok _, s1) => some s1
    | (.abort _, _) => none
  | .inIfBody condition _, s =>
    match E condition s with
    | (.ok c, s1) => if IsTrue c then some s1 else none
    | (.abort _, _) => none
  | .inElseBody condition _, s =>
    match E condition s with
    | (.ok c, s1) => if IsTrue c then none else some s1
    | (.abort _, _) => none

/-- The state in which the innermost statement starts when it is executed with `fuel`. -/
def enterAll (fuel : Nat) : List Nesting → Closure × Context → Option (Closure × Context)
  | [], s => some s
  | level :: levels, s =>
    match level.enter (Execute (fuel + levels.length)) s with
    | some s1 => enterAll fuel levels s1
    | none => none

/-! ## Concrete programs -/

/-- `class Point:` without methods. -/
def classPoint : Class :=
  .mk "Point" [] none

/-- The constructor expression `Point()` in the body of `make`; its member instance is at
address 1. -/
def newPoint : Statement :=
  .NewInstance 1 classPoint []

/-- `class Factory:` with `def make(): return Point()`. -/
def classFactory : Class :=
  .mk "Factory" [.mk "make" [] (some (.MethodBody (.Return newPoint)))] none

/-- `f = Factory()`, `a = f.make()`, `a.x = one`, `b = f.make()`. -/
def factoryProgram : Statement :=
  .Compound
    [.Assignment "f" (.NewInstance 0 classFactory []),
     .Assignment "a" (.MethodCall (.VariableValue ["f"]) "make" []),
     .FieldAssignment ["a"] "x" (.VariableValue ["one"]),
     .Assignment "b" (.MethodCall (.VariableValue ["f"]) "make" [])]

/-- A closure in which `one` is bound to the number 1, with nothing written and no field set. -/
def startState : Closure × Context :=
  ([("one", .Number 1)], ⟨"", []⟩)

/-- `class Animal:` with `def speak(): return self`. -/
def classAnimal : Class :=
  .mk "Animal" [.mk "speak" [] (some (.MethodBody (.Return (.VariableValue ["self"]))))] none

/-- `class Dog(Animal):` without methods. -/
def classDog : Class :=
  .mk "Dog" [] (some classAnimal)

/-- A method `get(self)` whose parameter list names `self`. -/
def methodGet : Method :=
  .mk "get" ["self"] (some (.MethodBody (.Return (.VariableValue ["self"]))))

/-- `class Box:` with the method `get(self)`. -/
def classBox : Class :=
  .mk "Box" [methodGet] none

/-- A method `pair(x, y)` returning `y`. -/
def methodPair : Method :=
  .mk "pair" ["x", "y"] (some (.MethodBody (.Return (.VariableValue ["y"]))))

/-- `class Pairs:` with the method `pair(x, y)`. -/
def classPairs : Class :=
  .mk "Pairs" [methodPair] none

/-- `class Broken:` with `def run(): return missing`, whose body reads an unbound name. -/
def classBroken : Class :=
  .mk "Broken" [.mk "run" [] (some (.MethodBody (.Return (.VariableValue ["missing"]))))] none

/-- The levels `y = one` `if one:` around a `return`, followed by a `print`. -/
def sampleLevels : List Nesting :=
  [.inCompound [.Assignment "y" (.VariableValue ["one"])] [.Print []],
   .inIfBody (.VariableValue ["one"]) none]

/-! ## Vocabulary of the statements on operators, names and printing -/

/-- The outcome of the recursive calls of `VariableValue::Execute` for the segments after
the first, starting from the value the first identifier is bound to. -/
def resolveFields (context : Context) (value : ObjectHolder) :
    List String → Outcome ObjectHolder
  | [] => .ok value
  | segment :: rest =>
    match value with
    | .ClassInstance self _ =>
      match lookup segment (Fields context self) with
      | none => .abort (.runtime_error "")
      | some next => resolveFields context next rest
    | _ => .abort .undefined_behaviour

/-- Follows the words of the spec: the value obtained by looking up each segment in the
fields of the previous instance, when every value on the way is an instance that has the
next segment as a field. -/
def fieldPath (context : Context) (value : ObjectHolder) : List String → Option ObjectHolder
  | [] => some value
  | segment :: rest =>
    match value with
    | .ClassInstance self _ =>
      match lookup segment (Fields context self) with
      | none => none
      | some next => fieldPath context next rest
    | _ => none

/-- The printed form `Print::Execute` writes for one result: `None` for the empty holder,
else what `Print` of the object writes. -/
def argumentText (E : Executor) (fuel : Nat) (result : ObjectHolder) : Run Context String :=
  match result with
  | .None => Run.ret "None"
  | _ => Print E fuel result

/-- The texts in order, separated by single spaces. -/
def spaced : List String → String
  | [] => ""
  | [text] => text
  | text :: next :: rest => text ++ " " ++ spaced (next :: rest)

/-- The output after a space and a text have been appended to `written` for each of the
texts. -/
def appended (written : String) : List String → String
  | [] => written
  | text :: rest => appended (written ++ " " ++ text) rest

/-- The arguments evaluate in order to `values`, taking the closure and the fields from the
first state to the last and writing nothing, whatever has been written before; `texts` are
the printed forms of the values: what `Print` of the object appends to the output (what a
`__str__` it calls writes, then its text). -/
inductive QuietArguments (E : Executor) (fuel : Nat) :
    List Statement → Closure × List (Nat × Closure) → List ObjectHolder → List String →
      Closure × List (Nat × Closure) → Prop
  | nil (σ : Closure × List (Nat × Closure)) : QuietArguments E fuel [] σ [] [] σ
  | cons (arg : Statement) (rest : List Statement) (σ σ1 σ3 : Closure × List (Nat × Closure))
      (fields2 : List (Nat × Closure)) (value : ObjectHolder) (written text : String)
      (values : List ObjectHolder) (texts : List String)
      (heval : ∀ out, E arg (σ.1, ⟨out, σ.2⟩) = (.ok value, (σ1.1, ⟨out, σ1.2⟩)))
      (htext : ∀ out,
        argumentText E fuel value ⟨out, σ1.2⟩ = (.ok text, ⟨out ++ written, fields2⟩))
      (hrest : QuietArguments E fuel rest (σ1.1, fields2) values texts σ3) :
      QuietArguments E fuel (arg :: rest) σ (value :: values) ((written ++ text) :: texts) σ3

/-! ## More concrete programs -/

/-- `class Ticker:` with `def get(): print(); return self.v`. -/
def classTicker : Class :=
  .mk "Ticker"
    [.mk "get" []
      (some (.MethodBody (.Compound [.Print [], .Return (.VariableValue ["self", "v"])])))]
    none

/-- The expression `c.get()`. -/
def tick : Statement :=
  .MethodCall (.VariableValue ["c"]) "get" []

/-- The name `c` holds a `Ticker` whose field `v` is 3; nothing is written yet. -/
def tickState : Closure × Context :=
  ([("c", .ClassInstance 5 classTicker)], ⟨"", [(5, [("v", .Number 3)])]⟩)

/-- The program `a = Point()`, `a.x = a`, `a.x.x = one`. -/
def selfReferenceProgram : Statement :=
  .Compound
    [.Assignment "a" (.NewInstance 1 classPoint []),
     .FieldAssignment ["a"] "x" (.VariableValue ["a"]),
     .FieldAssignment ["a", "x"] "x" (.VariableValue ["one"])]

/-- The program `a = Point()`, `b = Point()`, `a.x = one`, with two constructor
expressions (member instances at the addresses 1 and 2). -/
def twoPointsProgram : Statement :=
  .Compound
    [.Assignment "a" (.NewInstance 1 classPoint []),
     .Assignment "b" (.NewInstance 2 classPoint []),
     .FieldAssignment ["a"] "x" (.VariableValue ["one"])]

/-- The state `twoPointsProgram` reaches from `startState`. -/
def twoPointsState : Closure × Context :=
  ([("one", .Number 1), ("a", .ClassInstance 1 classPoint), ("b", .ClassInstance 2 classPoint)],
    ⟨"", [(1, [("x", .Number 1)])]⟩)

/-- A closure with the numbers -7 and 2, the strings `a` and `b` and the Bool true. -/
def valuesState : Closure × Context :=
  ([("seven", .Number (-7)), ("two", .Number 2), ("a", .String "a"), ("b", .String "b"),
    ("flag", .Bool true)], ⟨"", []⟩)

/-! ## Concrete programs on calls, equality and construction -/

/-- `class Echo:` with `def me(): print self.v; return self`, `def id(x): return x` and
`def get(): print; return self.v`. -/
def classEcho : Class :=
  .mk "Echo"
    [.mk "me" []
      (some (.MethodBody (.Compound
        [.Print [.VariableValue ["self", "v"]], .Return (.VariableValue ["self"])]))),
     .mk "id" ["x"] (some (.MethodBody (.Return (.VariableValue ["x"])))),
     .mk "get" []
      (some (.MethodBody (.Compound [.Print [], .Return (.VariableValue ["self", "v"])])))]
    none

/-- The name `c` holds an `Echo` whose field `v` is 3; nothing is written yet. -/
def echoState : Closure × Context :=
  ([("c", .ClassInstance 5 classEcho)], ⟨"", [(5, [("v", .Number 3)])]⟩)

/-- The expression `c.me().id(c.get())`: its target writes the line `3`, its argument
an empty line. -/
def echoCall : Statement :=
  .MethodCall (.MethodCall (.VariableValue ["c"]) "me" []) "id"
    [.MethodCall (.VariableValue ["c"]) "get" []]

/-- The expression `c.v.id(c.get())`, whose target is a number. -/
def numberCall : Statement :=
  .MethodCall (.VariableValue ["c", "v"]) "id" [.MethodCall (.VariableValue ["c"]) "get" []]

/-- `class Loose:` with `def __eq__(other): return self.v`. -/
def classLoose : Class :=
  .mk "Loose"
    [.mk "__eq__" ["other"] (some (.MethodBody (.Return (.VariableValue ["self", "v"]))))]
    none

/-- Two `Loose` instances whose field `v` is the number 3. -/
def looseContext : Context :=
  ⟨"", [(5, [("v", .Number 3)]), (6, [("v", .Number 3)])]⟩

/-- `class Cell:` with `def __init__(v): self.v = v`. -/
def classCell : Class :=
  .mk "Cell"
    [.mk "__init__" ["v"]
      (some (.MethodBody (.FieldAssignment ["self"] "v" (.VariableValue ["v"]))))]
    none

/-- The constructor expression `Cell(<print>, <print>)` with two arguments that write a
line each; its member instance is at address 7. -/
def newCell : Statement :=
  .NewInstance 7 classCell [.Print [], .Print []]

/-! ## lexer.h, lexer.cpp -/

/-- A token (`parse::Token`); the values of `Id` and `String` are `std::string`s, modelled
as lists of characters. -/
inductive Token
  | Number (value : Int)
  | Id (value : List Char)
  | Char (value : Char)
  | String (value : List Char)
  | Class
  | Return
  | If
  | Else
  | Def
  | Newline
  | Print
  | Indent
  | Dedent
  | And
  | Or
  | Not
  | Eq
  | NotEq
  | LessOrEq
  | GreaterOrEq
  | None
  | True
  | False
  | Eof
  deriving DecidableEq

/-- Ways in which a call of the lexer does not return a token. -/
inductive LexerAbort
  | invalid_argument
  | out_of_range
  | undefined_behaviour
  | out_of_fuel
  deriving DecidableEq

inductive Lexed (α : Type)
  | ok (value : α)
  | abort (e : LexerAbort)
  deriving DecidableEq

/-- A `std::istream` over a text: the characters read so far (the last one first), the
characters still to read, and the state bits `failbit` and `eofbit`. -/
structure IStream where
  consumed : List Char
  rest : List Char
  failbit : Bool
  eofbit : Bool
  deriving DecidableEq

/-- `input.get(c)`: nothing is read from a stream that is not good or is at its end (then
`c` keeps its value and `failbit` is set); else the next character is read. -/
def IStream.get (input : IStream) : Option Char × IStream :=
  if input.failbit || input.eofbit then (none, { input with failbit := true })
  else
    match input.rest with
    | [] => (none, { input with failbit := true, eofbit := true })
    | c :: rest => (some c, { input with consumed := c :: input.consumed, rest := rest })

/-- `input.putback(c)`: clears `eofbit`; does nothing on a failed stream; else steps back
over the character read last when it is `c` (and fails when it is not). -/
def IStream.putback (input : IStream) (c : Char) : IStream :=
  if input.failbit then { input with eofbit := false }
  else
    match input.consumed with
    | last :: consumed =>
      if last = c then
        { input with consumed := consumed, rest := last :: input.rest, eofbit := false }
      else { input with failbit := true, eofbit := false }
    | [] => { input with failbit := true, eofbit := false }

/-- The members of `parse::Lexer` that change (`key_words_` and `unexpected_symbols` are
constants, `ids_` is never used). -/
structure Lexer where
  is_new_line : Bool
  token_buffer : List Token
  tokens : List Token
  is_need_to_parse_indent : Bool
  is_token_in_last_line : Bool
  indent : Nat
  input : IStream
  deriving DecidableEq

def key_words : List (List Char × Token) :=
  [("return".toList, .Return), ("class".toList, .Class), ("if".toList, .If),
   ("else".toList, .Else), ("def".toList, .Def), ("print".toList, .Print),
   ("or".toList, .Or), ("None".toList, .None), ("True".toList, .True),
   ("False".toList, .False), ("not".toList, .Not), ("and".toList, .And)]

def unexpected_symbols : List Char :=
  [':', '(', ',', ')', '.', '#', '+', '<', '=', '*', '\'', '"', '!', '/', '-']

/-- The characters `std::isspace` accepts in the C locale. -/
def isspace (c : Char) : Bool :=
  c = ' ' || c = '\t' || c = '\n' || c = '\x0b' || c = '\x0c' || c = '\r'

/-- The value of a run of decimal digits. -/
def digitsValue (digits : List Char) : Nat :=
  digits.foldl (fun value d => 10 * value + (d.toNat - '0'.toNat)) 0

/-- `std::stoi(id)`: leading white space and an optional sign are skipped and the longest
run of digits is converted; `none` when it throws (no digit, or a value outside `int`). -/
def stoi (id : List Char) : Option Int :=
  let text := id.dropWhile isspace
  let negative := text.head? = some '-'
  let unsigned := if text.head? = some '-' || text.head? = some '+' then text.tail else text
  let digits := unsigned.takeWhile Char.isDigit
  if digits = [] then none
  else
    let value : Int := if negative then -(digitsValue digits : Int) else digitsValue digits
    if value < -INT_MAX - 1 || INT_MAX < value then none else some value

/-- `CurrentToken()`: `tokens_.at(tokens_.size() - 1)`, which throws on an empty vector. -/
def Lexer.CurrentToken (lexer : Lexer) : Lexed Token :=
  match lexer.tokens.getLast? with
  | some token => .ok token
  | none => .abort .out_of_range

/-- The loop `while (input_.get(c) && c == ' ') this_indent++` of `ParseIndent`: the count,
the last value of `c` (`none` while nothing was stored in it) and the stream.  The bound
is the number of characters left plus one. -/
def countSpaces : Nat → IStream → Nat → Option Char → Nat × Option Char × IStream
  | 0, input, this_indent, c => (this_indent, c, input)
  | bound + 1, input, this_indent, c =>
    match input.get with
    | (none, after) => (this_indent, c, after)
    | (some read, after) =>
      if read = ' ' then countSpaces bound after (this_indent + 1) (some read)
      else (this_indent, some read, after)

/-- The decoded character of the escape sequence backslash `escaped_char`. -/
def unescape (escaped_char : Char) : Option Char :=
  if escaped_char = 'n' then some '\n'
  else if escaped_char = 't' then some '\t'
  else if escaped_char = 'r' then some '\r'
  else if escaped_char = '"' then some '"'
  else if escaped_char = '\\' then some '\\'
  else if escaped_char = '\'' then some '\''
  else none

/-- The loop of `ParseConstString` over the stream buffer (`*it` looks at the next
character, `++it` steps over it; the state bits of the stream are not touched): the text
`s` collected so far, the characters stepped over and the characters left. -/
def scanString (string_start : Char) :
    List Char → List Char → List Char → Lexed (List Char) × List Char × List Char
  | [], _, consumed => (.abort .invalid_argument, consumed, [])
  | ch :: rest, s, consumed =>
    if ch = string_start then (.ok s, ch :: consumed, rest)
    else if ch = '\\' then
      match rest with
      | [] => (.abort .invalid_argument, ch :: consumed, [])
      | escaped_char :: after =>
        match unescape escaped_char with
        | some decoded => scanString string_start after (s ++ [decoded])
            (escaped_char :: ch :: consumed)
        | none => (.abort .invalid_argument, ch :: consumed, rest)
    else if ch = '\n' || ch = '\r' then (.abort .invalid_argument, consumed, ch :: rest)
    else scanString string_start rest (s ++ [ch]) (ch :: consumed)

def ParseConstString (lexer : Lexer) : Lexed Token × Lexer :=
  let first := lexer.input.get
  let string_start := first.1.getD (Char.ofNat 255)
  match scanString string_start first.2.rest [] first.2.consumed with
  | (.ok s, consumed, rest) =>
    (.ok (.String s), { lexer with input := { first.2 with consumed := consumed, rest := rest } })
  | (.abort e, consumed, rest) =>
    (.abort e, { lexer with input := { first.2 with consumed := consumed, rest := rest } })

/-- The loop of `LoadNumberIdKeywordBool` that collects `id`: the text, and the stream
after the `get` that ended the loop.  The last value of `current_char` is returned for
the `putback`. -/
def collectId : Nat → IStream → List Char → Option Char → List Char × Option Char × IStream
  | 0, input, id, current_char => (id, current_char, input)
  | bound + 1, input, id, current_char =>
    match input.get with
    | (none, after) => (id, current_char, after)
    | (some read, after) =>
      if read != ' ' && read != '\n' && !unexpected_symbols.contains read then
        collectId bound after (id ++ [read]) (some read)
      else (id, some read, after)

def LoadNumberIdKeywordBool (lexer : Lexer) : Lexed Token × Lexer :=
  match collectId (lexer.input.rest.length + 1) lexer.input [] none with
  | (id, current_char, after) =>
    match current_char with
    | none => (.abort .undefined_behaviour, { lexer with input := after })
    | some c =>
      let next := { lexer with input := after.putback c }
      match lookup id key_words with
      | some token => (.ok token, next)
      | none =>
        match stoi id with
        | some number => (.ok (.Number number), next)
        | none => (.ok (.Id id), next)

/-- The loop `while (c != '\n' && input_) input_.get(c)` that skips a comment. -/
def skipComment : Nat → IStream → Char → IStream
  | 0, input, _ => input
  | bound + 1, input, c =>
    if c != '\n' && !input.failbit then
      match input.get with
      | (none, after) => skipComment bound after c
      | (some read, after) => skipComment bound after read
    else input

/-- `NextToken()`, with `GetTokenFromIstream` given as `G`. -/
def NextTokenWith (G : Lexer → Lexed Token × Lexer) (lexer : Lexer) : Lexed Token × Lexer :=
  match lexer.CurrentToken with
  | .abort e => (.abort e, lexer)
  | .ok current =>
    if current = .Eof then (.ok current, lexer)
    else
      match lexer.token_buffer with
      | _ :: _ => (.ok .Dedent, { lexer with token_buffer := lexer.token_buffer.dropLast })
      | [] =>
        let marked :=
          { lexer with is_token_in_last_line := current != .Newline && current != .Indent }
        match G marked with
        | (.abort e, after) => (.abort e, after)
        | (.ok token, after) =>
          let pushed := { after with tokens := after.tokens ++ [token] }
          if token != .Newline && token != .Eof && token != .Dedent && token != .Indent then
            (.ok token, { pushed with is_new_line := false })
          else (.ok token, pushed)

/-- `ParseIndent()`, with `GetTokenFromIstream` given as `G`.  The variable `c` is not
initialised: comparing it when the first `get` has failed is undefined. -/
def ParseIndentWith (G : Lexer → Lexed Token × Lexer) (lexer : Lexer) : Lexed Token × Lexer :=
  let started := { lexer with is_need_to_parse_indent := false }
  match countSpaces (lexer.input.rest.length + 1) lexer.input 0 none with
  | (_, none, after) => (.abort .undefined_behaviour, { started with input := after })
  | (this_indent, some c, after) =>
    if c = '\n' then G { started with input := after.putback c }
    else
      let back := { started with input := after.putback c }
      if back.indent > this_indent then
        let buff_size := back.indent / 2 - this_indent / 2
        NextTokenWith G
          { back with
            token_buffer := back.token_buffer ++ List.replicate buff_size Token.Dedent
            indent := back.indent - 2 * buff_size }
      else if back.indent < this_indent then
        (.ok .Indent, { back with indent := back.indent + 2 })
      else G back

/-- The loop `while (input.get(c))` of `GetTokenFromIstream` and what follows it, with
the recursive calls of `GetTokenFromIstream` given as `G`.  The variable `new_char` is not
initialised: comparing it when its `get` has failed is undefined. -/
def tokenLoop (G : Lexer → Lexed Token × Lexer) : Nat → Lexer → Lexed Token × Lexer
  | 0, lexer => (.abort .out_of_fuel, lexer)
  | bound + 1, lexer =>
    match lexer.input.get with
    | (none, after) =>
      let ended := { lexer with input := after }
      if !ended.is_new_line then
        (.ok .Newline, { ended with is_new_line := true, is_need_to_parse_indent := true })
      else (.ok .Eof, ended)
    | (some c, after) =>
      let read := { lexer with input := after }
      if c = '\n' then
        if read.tokens.isEmpty then tokenLoop G bound read
        else
          let line := { read with is_new_line := true, is_need_to_parse_indent := true }
          if line.tokens.getLast? = some .Newline then ParseIndentWith G line
          else (.ok .Newline, line)
      else if c = ' ' then tokenLoop G bound read
      else if c = '"' || c = '\'' then
        ParseConstString { read with input := after.putback c }
      else if c = '#' then
        let skipped := { read with input := skipComment (after.rest.length + 1) after c }
        if skipped.is_token_in_last_line then
          (.ok .Newline,
            { skipped with
              is_new_line := true
              is_token_in_last_line := false
              is_need_to_parse_indent := true })
        else
          let blank := { skipped with is_new_line := true }
          if blank.tokens.isEmpty then tokenLoop G bound blank else G blank
      else if c = '=' then
        if after.failbit then (.ok (.Char c), read)
        else
          match after.get with
          | (none, last) => (.abort .undefined_behaviour, { read with input := last })
          | (some new_char, last) =>
            if new_char = ' ' then (.ok (.Char c), { read with input := last })
            else if new_char = '=' then (.ok .Eq, { read with input := last })
            else (.ok (.Char c), { read with input := last.putback new_char })
      else if c = '<' || c = '>' then
        if after.failbit then (.ok (.Char c), read)
        else
          match after.get with
          | (none, last) => (.abort .undefined_behaviour, { read with input := last })
          | (some new_char, last) =>
            if new_char = '=' then
              (.ok (if c = '<' then .LessOrEq else .GreaterOrEq), { read with input := last })
            else (.ok (.Char c), { read with input := last.putback new_char })
      else if c = '!' then (.ok .NotEq, { read with input := after.get.2 })
      else if c = '-' || c = '.' || c = ',' || c = '(' || c = '+' || c = ')' || c = '*' ||
          c = '/' || c = ':' then
        (.ok (.Char c), read)
      else LoadNumberIdKeywordBool { read with input := after.putback c }

/-- `GetTokenFromIstream(input_)`; the fuel bounds the depth of its recursion. -/
def GetTokenFromIstream : Nat → Lexer → Lexed Token × Lexer
  | 0, lexer => (.abort .out_of_fuel, lexer)
  | fuel + 1, lexer =>
    match lexer.token_buffer with
    | _ :: _ => (.ok .Dedent, { lexer with token_buffer := lexer.token_buffer.dropLast })
    | [] =>
      if lexer.is_need_to_parse_indent then ParseIndentWith (GetTokenFromIstream fuel) lexer
      else tokenLoop (GetTokenFromIstream fuel) (lexer.input.rest.length + 1) lexer

def ParseIndent (fuel : Nat) (lexer : Lexer) : Lexed Token × Lexer :=
  ParseIndentWith (GetTokenFromIstream fuel) lexer

def NextToken (fuel : Nat) (lexer : Lexer) : Lexed Token × Lexer :=
  NextTokenWith (GetTokenFromIstream fuel) lexer

/-- The constructor `Lexer(input)` on a fresh stream over `text`. -/
def Lexer.new (fuel : Nat) (text : List Char) : Lexed Token × Lexer :=
  let start : Lexer := ⟨false, [], [], false, false, 0, ⟨[], text, false, false⟩⟩
  match start.input.get with
  | (none, after) => (.ok .Eof, { start with tokens := [.Eof], input := after })
  | (some c, after) =>
    match GetTokenFromIstream fuel { start with input := after.putback c } with
    | (.ok token, lexer) => (.ok token, { lexer with tokens := lexer.tokens ++ [token] })
    | (.abort e, lexer) => (.abort e, lexer)

/-- The tokens returned by `count` calls of `NextToken()`, until one does not return. -/
def nextTokens (fuel : Nat) : Nat → Lexer → List (Lexed Token)
  | 0, _ => []
  | count + 1, lexer =>
    match NextToken fuel lexer with
    | (.ok token, after) => .ok token :: nextTokens fuel count after
    | (.abort e, _) => [.abort e]

/-- The token of the constructor followed by those of `count` calls of `NextToken()`. -/
def tokenStream (fuel : Nat) (count : Nat) (text : List Char) : List (Lexed Token) :=
  match Lexer.new fuel text with
  | (.ok token, lexer) => .ok token :: nextTokens fuel count lexer
  | (.abort e, _) => [.abort e]

/-! ## Vocabulary of the statements on the lexer -/

/-- The characters that a string literal writes as an escape sequence. -/
def isEscaped (c : Char) : Bool :=
  c = '\n' || c = '\t' || c = '\r' || c = '\\' || c = '"' || c = '\''

/-- The character written after the backslash for the character `c`. -/
def escapeCode (c : Char) : Char :=
  if c = '\n' then 'n' else if c = '\t' then 't' else if c = '\r' then 'r' else c

/-- The text `escape(s)`: newline, tab, carriage return, backslash and the two quotes as a
backslash and their code, every other character as itself. -/
def escape : List Char → List Char
  | [] => []
  | c :: s => if isEscaped c then '\\' :: escapeCode c :: escape s else c :: escape s

/-- A piece of the text between the quotes of a literal: a character written as itself, or
an escape sequence (given by the character it stands for). -/
inductive Piece
  | plain (c : Char)
  | escaped (decoded : Char)

/-- The text of the pieces. -/
def render : List Piece → List Char
  | [] => []
  | .plain c :: body => c :: render body
  | .escaped decoded :: body => '\\' :: escapeCode decoded :: render body

/-- The characters the pieces stand for. -/
def decoded : List Piece → List Char
  | [] => []
  | .plain c :: body => c :: decoded body
  | .escaped d :: body => d :: decoded body

/-- The pieces that may stand in a literal opened by `q`: a plain character is not `q`, a
backslash, a newline or a carriage return; an escape sequence is one of the six. -/
def wellFormed (q : Char) : List Piece → Bool
  | [] => true
  | .plain c :: body => c != q && c != '\\' && c != '\n' && c != '\r' && wellFormed q body
  | .escaped d :: body => isEscaped d && wellFormed q body

/-- The ways a literal goes wrong after well-formed pieces: the input ends (possibly after
a backslash), a raw newline or carriage return, or a backslash before another character
than `n`, `t`, `r`, the backslash and the two quotes. -/
def unterminated : List Char → Bool
  | [] => true
  | c :: rest =>
    c = '\n' || c = '\r' ||
      (c = '\\' &&
        match rest with
        | [] => true
        | e :: _ => e != 'n' && e != 't' && e != 'r' && e != '\\' && e != '"' && e != '\'')

/-- The characters that end the text of an identifier in `LoadNumberIdKeywordBool`. -/
def endsId (c : Char) : Bool :=
  c = ' ' || c = '\n' || unexpected_symbols.contains c

/-- The number of `Indent` tokens minus the number of `Dedent` tokens of a token list. -/
def depth : List (Lexed Token) → Int
  | [] => 0
  | .ok .Indent :: rest => depth rest + 1
  | .ok .Dedent :: rest => depth rest - 1
  | _ :: rest => depth rest

/-! ## Concrete programs on the range of numbers -/

/-- A closure with the largest and the smallest `int`, the numbers 1, -1 and 100000. -/
def limitsState : Closure × Context :=
  ([("largest", .Number 2147483647), ("smallest", .Number (-2147483648)),
    ("one", .Number 1), ("minus", .Number (-1)), ("big", .Number 100000)], ⟨"", []⟩)

/-- The operands `print(seven)` and `print(two)`, which write the lines `-7` and `2`. -/
def printSeven : Statement :=
  .Print [.VariableValue ["seven"]]

def printTwo : Statement :=
  .Print [.VariableValue ["two"]]

/-! ## Lemmas on closures -/

theorem lookup_assign_self {κ α : Type} [DecidableEq κ] (key : κ) (v : α)
    (m : List (κ × α)) : lookup key (assign key v m) = some v := by
  induction m with
  | nil => simp [assign, lookup]
  | cons kv rest ih =>
    obtain ⟨k, x⟩ := kv
    by_cases h : k = key <;> simp [assign, lookup, h, ih]

theorem lookup_assign_other {κ α : Type} [DecidableEq κ] (key other : κ) (v : α)
    (m : List (κ × α)) (h : other ≠ key) : lookup other (assign key v m) = lookup other m := by
  induction m with
  | nil => simp [assign, lookup, Ne.symm h]
  | cons kv rest ih =>
    obtain ⟨k, x⟩ := kv
    by_cases hk : k = key
    · subst hk
      simp [assign, lookup, Ne.symm h]
    · by_cases ho : k = other
      · subst ho
        simp [assign, lookup, hk]
      · simp [assign, lookup, hk, ho, ih]

theorem bindArgs_absent (key : String) :
    ∀ (ps : List String) (as : List ObjectHolder) (c : Closure),
      key ∉ ps → lookup key (bindArgs ps as c) = lookup key c
  | [], _, _, _ => by simp [bindArgs]
  | _ :: _, [], _, _ => by simp [bindArgs]
  | p :: ps, a :: as, c, h => by
    have hp : key ≠ p := fun e => h (by simp [e])
    have hps : key ∉ ps := fun e => h (by simp [e])
    by_cases hs : p = "self"
    · simp [bindArgs, hs, bindArgs_absent key ps as c hps]
    · simp [bindArgs, hs, bindArgs_absent key ps as _ hps, lookup_assign_other p key a c hp]

theorem bindArgs_self :
    ∀ (ps : List String) (as : List ObjectHolder) (c : Closure),
      lookup "self" (bindArgs ps as c) = lookup "self" c
  | [], _, _ => by simp [bindArgs]
  | _ :: _, [], _ => by simp [bindArgs]
  | p :: ps, a :: as, c => by
    by_cases hs : p = "self"
    · simp [bindArgs, hs, bindArgs_self ps as c]
    · simp [bindArgs, hs, bindArgs_self ps as _,
        lookup_assign_other p "self" a c (fun e => hs e.symm)]

theorem bindArgs_position (key : String) (hkey : key ≠ "self") :
    ∀ (ps : List String) (as : List ObjectHolder) (c : Closure) (i : Nat) (a : ObjectHolder),
      ps[i]? = some key → as[i]? = some a → (∀ j : Nat, i < j → ps[j]? ≠ some key) →
      lookup key (bindArgs ps as c) = some a
  | [], _, _, i, _, h, _, _ => by simp at h
  | _ :: _, [], _, i, _, _, h, _ => by simp at h
  | p :: ps, b :: as, c, 0, a, hp, ha, hlast => by
    simp at hp ha
    subst hp ha
    have hnot : p ∉ ps := by
      intro hmem
      obtain ⟨j, hj, hjp⟩ := List.getElem_of_mem hmem
      have := hlast (j + 1) (by omega)
      simp [List.getElem?_eq_getElem hj, hjp] at this
    simp [bindArgs, hkey, bindArgs_absent p ps as _ hnot, lookup_assign_self]
  | p :: ps, b :: as, c, i + 1, a, hp, ha, hlast => by
    simp at hp ha
    have hrest : ∀ j, i < j → ps[j]? ≠ some key := by
      intro j hj
      have := hlast (j + 1) (by omega)
      simpa using this
    by_cases hs : p = "self"
    · simp [bindArgs, hs, bindArgs_position key hkey ps as c i a hp ha hrest]
    · simp [bindArgs, hs, bindArgs_position key hkey ps as _ i a hp ha hrest]

/-! ## Lemmas on method lookup and dispatch -/

theorem findMethod_first (n : String) (pre : List Method) (m : Method) (post : List Method)
    (hm : m.name = n) (hpre : ∀ x ∈ pre, x.name ≠ n) :
    findMethod n (pre ++ m :: post) = some m := by
  induction pre with
  | nil => simp [findMethod, hm]
  | cons x xs ih =>
    have hx : x.name ≠ n := hpre x (by simp)
    have hxs : ∀ y ∈ xs, y.name ≠ n := fun y hy => hpre y (by simp [hy])
    simp [findMethod, hx, ih hxs]

theorem findMethod_none_iff (n : String) (ms : List Method) :
    findMethod n ms = none ↔ ∀ m ∈ ms, m.name ≠ n := by
  induction ms with
  | nil => simp [findMethod]
  | cons x xs ih =>
    by_cases hx : x.name = n <;> simp [findMethod, hx, ih]

theorem findMethod_name (n : String) (ms : List Method) (m : Method)
    (h : findMethod n ms = some m) : m.name = n := by
  induction ms with
  | nil => simp [findMethod] at h
  | cons x xs ih =>
    by_cases hx : x.name = n
    · simp [findMethod, hx] at h
      subst h
      exact hx
    · simp [findMethod, hx] at h
      exact ih h

theorem GetMethod_name : ∀ (c : Class) (n : String) (m : Method),
    c.GetMethod n = some m → m.name = n
  | .mk name methods none, n, m, h => by
    rw [Class.GetMethod] at h
    cases hf : findMethod n methods with
    | none => simp [hf] at h
    | some found =>
      simp [hf] at h
      subst h
      exact findMethod_name n methods found hf
  | .mk name methods (some p), n, m, h => by
    rw [Class.GetMethod] at h
    cases hf : findMethod n methods with
    | none =>
      simp [hf] at h
      exact GetMethod_name p n m h
    | some found =>
      simp [hf] at h
      subst h
      exact findMethod_name n methods found hf

theorem GetMethod_none_iff : ∀ (c : Class) (n : String),
    c.GetMethod n = none ↔ ∀ k ∈ c.chain, ∀ m ∈ k.methods, m.name ≠ n
  | .mk name methods none, n => by
    rw [Class.GetMethod, Class.chain]
    cases hf : findMethod n methods with
    | none =>
      simpa [Class.methods] using (findMethod_none_iff n methods).mp hf
    | some m =>
      have := mt (findMethod_none_iff n methods).mpr (by simp [hf])
      simpa [Class.methods] using this
  | .mk name methods (some p), n => by
    have ih := GetMethod_none_iff p n
    rw [Class.GetMethod, Class.chain]
    cases hf : findMethod n methods with
    | none =>
      have := (findMethod_none_iff n methods).mp hf
      simp only [List.mem_cons, forall_eq_or_imp, Class.methods, ih]
      exact ⟨fun h => ⟨this, h⟩, fun h => h.2⟩
    | some m =>
      have := mt (findMethod_none_iff n methods).mpr (by simp [hf])
      simp only [List.mem_cons, forall_eq_or_imp, Class.methods, false_iff, reduceCtorEq]
      exact fun h => this h.1

theorem HasMethod_iff (cls : Class) (method : String) (n : Nat) :
    ClassInstance.HasMethod cls method n = true ↔
      ∃ meth, cls.GetMethod method = some meth ∧ meth.name = method ∧
        meth.formal_params.length = n := by
  unfold ClassInstance.HasMethod
  cases h : cls.GetMethod method with
  | none => simp
  | some meth => simp [GetMethod_name cls method meth h]

theorem Call_dispatched (E : Executor) (self : Nat) (cls : Class) (method : String)
    (actual_args : List ObjectHolder) (context : Context) (meth : Method) (body : Statement)
    (hm : cls.GetMethod method = some meth)
    (harity : meth.formal_params.length = actual_args.length) (hb : meth.body = some body) :
    ClassInstance.Call E self cls method actual_args context =
      ((E body (callClosure self cls meth actual_args, context)).1,
        (E body (callClosure self cls meth actual_args, context)).2.2) := by
  have hh : ClassInstance.HasMethod cls method actual_args.length = true :=
    (HasMethod_iff cls method _).mpr ⟨meth, hm, GetMethod_name cls method meth hm, harity⟩
  simp [ClassInstance.Call, hh, hm, hb]

theorem Call_not_found (E : Executor) (self : Nat) (cls : Class) (method : String)
    (actual_args : List ObjectHolder) (context : Context)
    (h : ClassInstance.HasMethod cls method actual_args.length = false) :
    ClassInstance.Call E self cls method actual_args context =
      (.abort (.runtime_error "Not implemented"), context) := by
  simp [ClassInstance.Call, h]

/-! ## Lemmas on the comparison functions -/

theorem Equal_undispatched (E : Executor) (context : Context) (lhs rhs : ObjectHolder)
    (h : equalDispatches lhs rhs = false) :
    Equal E lhs rhs context = (.abort equalityError, context) := by
  cases lhs <;> cases rhs <;> first
    | rfl
    | cases h
    | (simp only [equalDispatches] at h; simp [Equal, h, Run.fail, equalityError])

theorem Less_none_left (E : Executor) (rhs : ObjectHolder) (context : Context) :
    Less E .None rhs context = (.abort lessError, context) := by
  cases rhs <;> rfl

theorem Less_none_right (E : Executor) (lhs : ObjectHolder) (context : Context) :
    Less E lhs .None context = (.abort lessError, context) := by
  cases lhs <;> rfl

theorem derived_abort (E : Executor) (lhs rhs : ObjectHolder) (context after : Context)
    (e : Abort) (h : Less E lhs rhs context = (.abort e, after)) :
    GreaterOrEqual E lhs rhs context = (.abort e, after) ∧
    Greater E lhs rhs context = (.abort e, after) ∧
    LessOrEqual E lhs rhs context = (.abort e, after) := by
  have h1 : GreaterOrEqual E lhs rhs context = (.abort e, after) := by
    simp [GreaterOrEqual, Run.andThen, h]
  have h2 : Greater E lhs rhs context = (.abort e, after) := by
    simp [Greater, Run.andThen, h1]
  exact ⟨h1, h2, by simp [LessOrEqual, Run.andThen, h2]⟩

/-! ## Lemmas on the non-local exit -/

theorem ExecuteAll_abort (E : Executor) (inner : Statement) (after : List Statement)
    (e : Abort) (s2 : Closure × Context) :
    ∀ (before : List Statement) (s s1 : Closure × Context) (values : List ObjectHolder),
      ExecuteAll E before s = (.ok values, s1) → E inner s1 = (.abort e, s2) →
      ExecuteAll E (before ++ inner :: after) s = (.abort e, s2)
  | [], s, s1, values, h1, h2 => by
    simp [ExecuteAll, Run.ret] at h1
    obtain ⟨-, rfl⟩ := h1
    simp [ExecuteAll, Run.andThen, h2]
  | first :: rest, s, s1, values, h1, h2 => by
    rw [List.cons_append]
    simp only [ExecuteAll, Run.andThen] at h1 ⊢
    rcases hf : E first s with ⟨o, s0⟩
    rw [hf] at h1
    cases o with
    | abort e0 => simp at h1
    | ok v =>
      simp only at h1 ⊢
      rcases hr : ExecuteAll E rest s0 with ⟨o1, s3⟩
      rw [hr] at h1
      cases o1 with
      | abort e1 => simp at h1
      | ok vs =>
        simp [Run.ret] at h1
        obtain ⟨-, rfl⟩ := h1
        rw [ExecuteAll_abort E inner after e s2 rest s0 s3 vs hr h2]

theorem fill_abort (fuel : Nat) (level : Nesting) (inner : Statement) (e : Abort)
    (s s1 s2 : Closure × Context) (henter : level.enter (Execute fuel) s = some s1)
    (h : Execute fuel inner s1 = (.abort e, s2)) :
    Execute (fuel + 1) (level.fill inner) s = (.abort e, s2) := by
  cases level with
  | inCompound before after =>
    simp only [Nesting.enter] at henter
    rcases hb : ExecuteAll (Execute fuel) before s with ⟨o, s0⟩
    rw [hb] at henter
    cases o with
    | abort e0 => simp at henter
    | ok values =>
      simp at henter
      subst henter
      simp [Nesting.fill, Execute, Run.andThen,
        ExecuteAll_abort (Execute fuel) inner after e s2 before s s0 values hb h]
  | inIfBody condition else_body =>
    simp only [Nesting.enter] at henter
    rcases hc : Execute fuel condition s with ⟨o, s0⟩
    rw [hc] at henter
    cases o with
    | abort e0 => simp at henter
    | ok c =>
      by_cases ht : IsTrue c = true
      · simp [ht] at henter
        subst henter
        simp [Nesting.fill, Execute, Run.andThen, hc, ht, h]
      · simp [ht] at henter
  | inElseBody condition if_body =>
    simp only [Nesting.enter] at henter
    rcases hc : Execute fuel condition s with ⟨o, s0⟩
    rw [hc] at henter
    cases o with
    | abort e0 => simp at henter
    | ok c =>
      by_cases ht : IsTrue c = true
      · simp [ht] at henter
      · simp [ht] at henter
        subst henter
        simp [Nesting.fill, Execute, Run.andThen, hc, ht, h]

theorem nest_abort (fuel : Nat) (inner : Statement) (e : Abort) (s2 : Closure × Context) :
    ∀ (levels : List Nesting) (s s1 : Closure × Context),
      enterAll fuel levels s = some s1 → Execute fuel inner s1 = (.abort e, s2) →
      Execute (fuel + levels.length) (nest levels inner) s = (.abort e, s2)
  | [], s, s1, h1, h2 => by
    simp [enterAll] at h1
    subst h1
    simpa [nest] using h2
  | level :: levels, s, s1, h1, h2 => by
    simp only [enterAll] at h1
    cases hl : level.enter (Execute (fuel + levels.length)) s with
    | none => simp [hl] at h1
    | some s0 =>
      simp only [hl] at h1
      have ih := nest_abort fuel inner e s2 levels s0 s1 h1 h2
      have := fill_abort (fuel + levels.length) level (nest levels inner) e s s0 s2 hl ih
      simpa [nest, Nat.add_assoc] using this

theorem MethodBody_catch (fuel : Nat) (body : Statement) (s : Closure × Context) :
    Execute (fuel + 1) (.MethodBody body) s =
      match Execute fuel body s with
      | (.abort (.ReturnExcept answer), s1) => (.ok answer, s1)
      | (.ok _, s1) => (.ok .None, s1)
      | (.abort e, s1) => (.abort e, s1) := by
  simp only [Execute]

/-! ## Construction -/

/-- C1, as the code behaves: a `NewInstance` node always returns a holder of its own member
object `new_instance_`, so two executions of one node give the same instance.  With
`class Factory` whose `make()` returns `Point()`, after `f = Factory()`, `a = f.make()`,
`a.x = one`, `b = f.make()` the names `a` and `b` hold the same instance (address 1), the
second `Point()` did not start with empty fields, and `b.x` reads the value written through
`a`. -/
theorem NewInstance_returns_member_object :
    (∀ (fuel new_instance : Nat) (cls : Class) (args : List Statement)
        (s s1 : Closure × Context) (value : ObjectHolder),
      Execute fuel (.NewInstance new_instance cls args) s = (.ok value, s1) →
        value = .ClassInstance new_instance cls) ∧
    Execute 6 factoryProgram startState =
      (.ok .None,
        ([("one", .Number 1), ("f", .ClassInstance 0 classFactory),
          ("a", .ClassInstance 1 classPoint), ("b", .ClassInstance 1 classPoint)],
         ⟨"", [(1, [("x", .Number 1)])]⟩)) ∧
    (Execute 1 (.VariableValue ["b", "x"])
        ([("one", .Number 1), ("f", .ClassInstance 0 classFactory),
          ("a", .ClassInstance 1 classPoint), ("b", .ClassInstance 1 classPoint)],
         ⟨"", [(1, [("x", .Number 1)])]⟩)).1 = .ok (.Number 1) := by
  refine ⟨?_, rfl, rfl⟩
  intro fuel new_instance cls args s s1 value h
  cases fuel with
  | zero => simp [Execute, Run.fail] at h
  | succ n =>
    simp only [Execute] at h
    split at h
    · simp only [Run.andThen] at h
      split at h
      · split at h
        · simp [Run.ret] at h
          exact h.1.symm
        · simp at h
      · simp at h
    · simp [Run.ret] at h
      exact h.1.symm

/-! ## The non-local exit of `Return` -/

/-- C2: a `Return` nested under any levels of `Compound` and `IfElse` inside a method body,
reached after the statements before it completed normally, makes `MethodBody::Execute`
return the value of its operand in the state that operand left (whatever statements or
branches follow it, they are not executed); `MethodBody::Execute` never ends with the
`Return` exit; and when the body completes without it the result is the empty holder. -/
theorem MethodBody_returns_first_Return (fuel : Nat) (levels : List Nesting)
    (statement : Statement) (s s1 s2 : Closure × Context) (answer : ObjectHolder) :
    (enterAll (fuel + 1) levels s = some s1 → Execute fuel statement s1 = (.ok answer, s2) →
      Execute (fuel + 1 + levels.length + 1) (.MethodBody (nest levels (.Return statement))) s
        = (.ok answer, s2)) ∧
    (∀ body, (Execute fuel (.MethodBody body) s).1 ≠ .abort (.ReturnExcept answer)) ∧
    (∀ body value, Execute fuel body s = (.ok value, s1) →
      Execute (fuel + 1) (.MethodBody body) s = (.ok .None, s1)) := by
  refine ⟨?_, ?_, ?_⟩
  · intro h1 h2
    have hr : Execute (fuel + 1) (.Return statement) s1
        = (.abort (.ReturnExcept answer), s2) := by
      simp [Execute, Run.andThen, h2, Run.fail]
    have := nest_abort (fuel + 1) (.Return statement) _ s2 levels s s1 h1 hr
    rw [MethodBody_catch, this]
  · intro body
    cases fuel with
    | zero => simp [Execute, Run.fail]
    | succ n =>
      rw [MethodBody_catch]
      rcases hb : Execute n body s with ⟨o, s0⟩
      cases o with
      | ok v => simp
      | abort e => cases e <;> simp
  · intro body value h
    rw [MethodBody_catch, h]

/-- C2 at a concrete body: in `y = one`, `if one: return y`, `print()` the method returns
the value of `y` and the `print` after the `if` writes nothing. -/
theorem MethodBody_returns_first_Return_witness :
    Execute 5
        (.MethodBody (.Compound
          [.Assignment "y" (.VariableValue ["one"]),
           .IfElse (.VariableValue ["one"]) (.Return (.VariableValue ["y"])) none,
           .Print []]))
        startState =
      (.ok (.Number 1), ([("one", .Number 1), ("y", .Number 1)], ⟨"", []⟩)) :=
  (MethodBody_returns_first_Return 1 sampleLevels (.VariableValue ["y"]) startState
    ([("one", .Number 1), ("y", .Number 1)], ⟨"", []⟩)
    ([("one", .Number 1), ("y", .Number 1)], ⟨"", []⟩) (.Number 1)).1 rfl rfl

/-! ## Method lookup and calls -/

/-- C3: `GetMethod(C, n)` is the first method named `n` of the own method list of `C` when
there is one, else the result of `GetMethod` on the parent (not found without a parent), and
it is not found exactly when no class of the parent chain has a method named `n`. -/
theorem GetMethod_spec (c : Class) (n : String) :
    (∀ pre m post, c.methods = pre ++ m :: post → m.name = n → (∀ x ∈ pre, x.name ≠ n) →
      c.GetMethod n = some m) ∧
    ((∀ m ∈ c.methods, m.name ≠ n) →
      c.GetMethod n = match c.parent with
        | none => none
        | some p => p.GetMethod n) ∧
    (c.GetMethod n = none ↔ ∀ k ∈ c.chain, ∀ m ∈ k.methods, m.name ≠ n) := by
  refine ⟨?_, ?_, GetMethod_none_iff c n⟩
  · intro pre m post hms hm hpre
    cases c with
    | mk name methods parent =>
      simp only [Class.methods] at hms
      cases parent <;> rw [Class.GetMethod, hms, findMethod_first n pre m post hm hpre]
  · intro h
    cases c with
    | mk name methods parent =>
      simp only [Class.methods] at h
      cases parent <;> rw [Class.GetMethod, (findMethod_none_iff n methods).mpr h] <;> rfl

/-- C3 at `class Dog(Animal)`: `Dog` has no `speak` of its own, so the lookup gives the
`speak` of `Animal`. -/
theorem GetMethod_spec_witness :
    classDog.GetMethod "speak" = classAnimal.GetMethod "speak" ∧
    (classAnimal.GetMethod "speak").isSome = true :=
  ⟨(GetMethod_spec classDog "speak").2.1 (by simp [classDog, Class.methods]), rfl⟩

/-- C4, amended: `HasMethod(name, n)` is true exactly when `GetMethod` finds a method called
`name` whose formal-parameter count is `n`; when `HasMethod(name, number of actual
arguments)` is false `Call` throws without executing anything; and, every method having a
body, `Call` ends with an error exactly when that `HasMethod` is false or the execution of
the method body ends with an error. -/
theorem Call_fails_iff (E : Executor) (self : Nat) (cls : Class) (method : String)
    (actual_args : List ObjectHolder) (context : Context)
    (hbody : ∀ meth, cls.GetMethod method = some meth → meth.body ≠ none) :
    (∀ n, ClassInstance.HasMethod cls method n = true ↔
      ∃ meth, cls.GetMethod method = some meth ∧ meth.name = method ∧
        meth.formal_params.length = n) ∧
    (ClassInstance.HasMethod cls method actual_args.length = false →
      ClassInstance.Call E self cls method actual_args context =
        (.abort (.runtime_error "Not implemented"), context)) ∧
    (isError (ClassInstance.Call E self cls method actual_args context).1 = true ↔
      (ClassInstance.HasMethod cls method actual_args.length = false ∨
        ∃ meth body, cls.GetMethod method = some meth ∧ meth.body = some body ∧
          isError (E body (callClosure self cls meth actual_args, context)).1 = true)) := by
  refine ⟨HasMethod_iff cls method, Call_not_found E self cls method actual_args context, ?_⟩
  cases hh : ClassInstance.HasMethod cls method actual_args.length with
  | false =>
    simp [Call_not_found E self cls method actual_args context hh, isError]
  | true =>
    obtain ⟨meth, hm, -, harity⟩ := (HasMethod_iff cls method _).mp hh
    cases hb : meth.body with
    | none => exact absurd hb (hbody meth hm)
    | some body =>
      rw [Call_dispatched E self cls method actual_args context meth body hm harity hb]
      constructor
      · intro h
        exact Or.inr ⟨meth, body, hm, hb, h⟩
      · rintro (h | ⟨meth2, body2, hm2, hb2, h⟩)
        · simp at h
        · rw [hm] at hm2
          injection hm2 with hm2
          subst hm2
          rw [hb] at hb2
          injection hb2 with hb2
          subst hb2
          exact h

/-- C4 at `Dog().speak()`: the method is found in the parent and the call does not fail. -/
theorem Call_fails_iff_witness :
    ClassInstance.HasMethod classDog "speak" 0 = true ∧
    isError (ClassInstance.Call (Execute 3) 0 classDog "speak" [] ⟨"", []⟩).1 = false := by
  have h := Call_fails_iff (Execute 3) 0 classDog "speak" [] ⟨"", []⟩
    (by
      intro meth hm
      have hfound : classDog.GetMethod "speak" =
          some (.mk "speak" [] (some (.MethodBody (.Return (.VariableValue ["self"]))))) := rfl
      rw [hfound] at hm
      injection hm with hm
      subst hm
      simp [Method.body])
  exact ⟨(h.1 0).mpr ⟨_, rfl, rfl, rfl⟩, rfl⟩

/-- C4 as stated fails on `Broken().run()`, whose body reads an unbound name: `HasMethod`
is true and `Call` ends with an error. -/
theorem Call_fails_with_method_present :
    ¬ (isError (ClassInstance.Call (Execute 3) 0 classBroken "run" [] ⟨"", []⟩).1 = true ↔
      ClassInstance.HasMethod classBroken "run" 0 = false) := by
  intro h
  have h1 : isError (ClassInstance.Call (Execute 3) 0 classBroken "run" [] ⟨"", []⟩).1 = true :=
    rfl
  have h2 : ClassInstance.HasMethod classBroken "run" 0 = true := rfl
  rw [h.mp h1] at h2
  exact Bool.false_ne_true h2

/-- C5, amended: a call that passes the dispatch executes the method body in a closure built
from nothing but `self` and the formal parameters: `self` is bound to the receiving
instance, the formal parameter at position `i` is bound to the `i`-th actual argument when
its name is not `self` and does not occur again at a later position, no other name is
bound, and the outcome of `Call` is the outcome of the body. -/
theorem Call_closure (E : Executor) (self : Nat) (cls : Class) (method : String)
    (actual_args : List ObjectHolder) (context : Context) (meth : Method) (body : Statement)
    (hm : cls.GetMethod method = some meth)
    (harity : meth.formal_params.length = actual_args.length) (hb : meth.body = some body) :
    ClassInstance.Call E self cls method actual_args context =
      ((E body (callClosure self cls meth actual_args, context)).1,
        (E body (callClosure self cls meth actual_args, context)).2.2) ∧
    lookup "self" (callClosure self cls meth actual_args) = some (.ClassInstance self cls) ∧
    (∀ (i : Nat) p a, meth.formal_params[i]? = some p → actual_args[i]? = some a →
      p ≠ "self" → (∀ j : Nat, i < j → meth.formal_params[j]? ≠ some p) →
      lookup p (callClosure self cls meth actual_args) = some a) ∧
    (∀ key, key ≠ "self" → key ∉ meth.formal_params →
      lookup key (callClosure self cls meth actual_args) = none) := by
  refine ⟨Call_dispatched E self cls method actual_args context meth body hm harity hb,
    ?_, ?_, ?_⟩
  · rw [callClosure, bindArgs_self]
    rfl
  · intro i p a hp ha hne hlast
    exact bindArgs_position p hne _ _ _ i a hp ha hlast
  · intro key hne hnot
    rw [callClosure, bindArgs_absent key _ _ _ hnot]
    simp [assign, lookup, Ne.symm hne]

/-- C5 at `pair(x, y)` called with 1 and 2: the body runs with `self`, `x`, `y` bound and the
call returns what the body returns, the value of `y`. -/
theorem Call_closure_witness :
    ClassInstance.Call (Execute 3) 7 classPairs "pair" [.Number 1, .Number 2] ⟨"", []⟩ =
      (.ok (.Number 2), ⟨"", []⟩) ∧
    lookup "self" (callClosure 7 classPairs methodPair [.Number 1, .Number 2]) =
      some (.ClassInstance 7 classPairs) ∧
    lookup "y" (callClosure 7 classPairs methodPair [.Number 1, .Number 2]) =
      some (.Number 2) := by
  have h := Call_closure (Execute 3) 7 classPairs "pair" [.Number 1, .Number 2] ⟨"", []⟩
    methodPair (.MethodBody (.Return (.VariableValue ["y"]))) rfl rfl rfl
  refine ⟨h.1, h.2.1, h.2.2.1 1 "y" (.Number 2) rfl rfl (by decide) ?_⟩
  intro j hj
  obtain ⟨k, rfl⟩ : ∃ k, j = k + 2 := ⟨j - 2, by omega⟩
  simp [methodPair, Method.formal_params]

/-- C5 as stated fails on the method `get(self)` called with the argument 5: the call passes
the dispatch, yet the formal parameter at position 0 is not bound to the actual argument at
position 0 (the name `self` stays bound to the instance). -/
theorem Call_self_slot_keeps_instance :
    ClassInstance.HasMethod classBox "get" 1 = true ∧
    ¬ (∀ (i : Nat) p a, methodGet.formal_params[i]? = some p →
        [ObjectHolder.Number 5][i]? = some a →
        lookup p (callClosure 0 classBox methodGet [.Number 5]) = some a) := by
  refine ⟨rfl, ?_⟩
  intro h
  have h1 := h 0 "self" (.Number 5) rfl rfl
  have h2 : lookup "self" (callClosure 0 classBox methodGet [.Number 5]) =
      some (.ClassInstance 0 classBox) := rfl
  rw [h2] at h1
  injection h1 with h1
  cases h1

/-! ## Truthiness, equality and ordering -/

/-- C6: `IsTrue` is false for the empty holder, the value for a `Bool`, "not zero" for a
`Number`, "not empty" for a `String`, and false for every class and every instance (the
fields of an instance live in the context, which `IsTrue` does not read). -/
theorem IsTrue_spec :
    IsTrue .None = false ∧
    (∀ b, IsTrue (.Bool b) = b) ∧
    (∀ n, IsTrue (.Number n) = true ↔ n ≠ 0) ∧
    (∀ s, IsTrue (.String s) = true ↔ s ≠ "") ∧
    (∀ c, IsTrue (.Class c) = false) ∧
    (∀ self cls, IsTrue (.ClassInstance self cls) = false) := by
  refine ⟨rfl, fun _ => rfl, ?_, ?_, fun _ => rfl, fun _ _ => rfl⟩
  · intro n; simp [IsTrue]
  · intro s; simp [IsTrue]

/-- C7: on two scalars of one variant `Equal` returns whether the values are equal, on two
empty holders it returns true, and whenever `Equal` returns a value `NotEqual` returns its
negation (in the same state). -/
theorem Equal_scalar (E : Executor) (context : Context) :
    (∀ a b : Bool, Equal E (.Bool a) (.Bool b) context = (.ok (decide (a = b)), context)) ∧
    (∀ a b : Int, Equal E (.Number a) (.Number b) context = (.ok (decide (a = b)), context)) ∧
    (∀ a b : String,
      Equal E (.String a) (.String b) context = (.ok (decide (a = b)), context)) ∧
    Equal E .None .None context = (.ok true, context) ∧
    (∀ lhs rhs r after, Equal E lhs rhs context = (.ok r, after) →
      NotEqual E lhs rhs context = (.ok (!r), after)) := by
  refine ⟨fun _ _ => rfl, fun _ _ => rfl, fun _ _ => rfl, rfl, ?_⟩
  intro lhs rhs r after h
  simp [NotEqual, Run.andThen, h, Run.ret]

/-- C8: `Equal` and `NotEqual` throw on every pair that is not both empty, both scalars of
one variant, or both instances whose left class has a one-argument `__eq__`; in particular
when exactly one operand is empty, when the operands are scalars of different variants, when
either operand is a class, and when both are instances without such a method. -/
theorem Equal_fails (E : Executor) (context : Context) :
    (∀ lhs rhs, equalDispatches lhs rhs = false →
      Equal E lhs rhs context = (.abort equalityError, context) ∧
      NotEqual E lhs rhs context = (.abort equalityError, context)) ∧
    (∀ v, v ≠ .None →
      Equal E .None v context = (.abort equalityError, context) ∧
      Equal E v .None context = (.abort equalityError, context)) ∧
    (∀ lhs rhs, isScalar lhs = true → isScalar rhs = true → sameScalar lhs rhs = false →
      Equal E lhs rhs context = (.abort equalityError, context)) ∧
    (∀ n s, Equal E (.Number n) (.String s) context = (.abort equalityError, context)) ∧
    (∀ c v,
      Equal E (.Class c) v context = (.abort equalityError, context) ∧
      Equal E v (.Class c) context = (.abort equalityError, context)) ∧
    (∀ self cls other ocls, ClassInstance.HasMethod cls "__eq__" 1 = false →
      Equal E (.ClassInstance self cls) (.ClassInstance other ocls) context =
        (.abort equalityError, context)) := by
  refine ⟨?_, ?_, ?_, ?_, ?_, ?_⟩
  · intro lhs rhs h
    exact ⟨Equal_undispatched E context lhs rhs h,
      by simp [NotEqual, Run.andThen, Equal_undispatched E context lhs rhs h]⟩
  · intro v hv
    cases v with
    | None => exact absurd rfl hv
    | _ => exact ⟨rfl, rfl⟩
  · intro lhs rhs h1 h2 h3
    apply Equal_undispatched
    cases lhs <;> cases rhs <;> first
      | rfl
      | exact Bool.noConfusion h3
      | exact Bool.noConfusion h1
  · intro n s
    rfl
  · intro c v
    cases v <;> exact ⟨rfl, rfl⟩
  · intro self cls other ocls h
    apply Equal_undispatched
    simpa [equalDispatches] using h

/-- C9: on the scalars of one variant `Less` is a strict total order consistent with
`Equal`: `Less(a, a)` is false, `Less` is transitive, and exactly one of `Less(a, b)`,
`Equal(a, b)`, `Less(b, a)` is true; on `Bool` false is less than true, on `Number` it is the
order of the integers and on `String` the lexicographic order of the characters. -/
theorem Less_strict_total_order (E : Executor) (context : Context) (a b c : ObjectHolder)
    (hab : sameScalar a b = true) (hbc : sameScalar b c = true) :
    Less E a a context = (.ok false, context) ∧
    (Less E a b context = (.ok true, context) → Less E b c context = (.ok true, context) →
      Less E a c context = (.ok true, context)) ∧
    (∃ l e g, Less E a b context = (.ok l, context) ∧ Equal E a b context = (.ok e, context) ∧
      Less E b a context = (.ok g, context) ∧
      ((l = true ∧ e = false ∧ g = false) ∨ (l = false ∧ e = true ∧ g = false) ∨
        (l = false ∧ e = false ∧ g = true))) ∧
    Less E (.Bool false) (.Bool true) context = (.ok true, context) ∧
    (∀ m n : Int, Less E (.Number m) (.Number n) context = (.ok (decide (m < n)), context)) ∧
    (∀ s t : String, Less E (.String s) (.String t) context = (.ok true, context) ↔
      s.toList < t.toList) := by
  refine ⟨?_, ?_, ?_, rfl, fun _ _ => rfl, ?_⟩
  · cases a <;> cases b <;> simp [sameScalar] at hab <;> simp [Less, Run.ret]
  · cases a <;> cases b <;> simp [sameScalar] at hab <;>
      cases c <;> simp [sameScalar] at hbc
    · rename_i x y z
      cases x <;> cases y <;> cases z <;> simp [Less, Run.ret]
    · rename_i x y z
      simp only [Less, Run.ret, Prod.mk.injEq, Outcome.ok.injEq, and_true, decide_eq_true_eq]
      exact fun h1 h2 => lt_trans h1 h2
    · rename_i x y z
      simp only [Less, Run.ret, Prod.mk.injEq, Outcome.ok.injEq, and_true, decide_eq_true_eq]
      exact fun h1 h2 => lt_trans h1 h2
  · cases a <;> cases b <;> simp [sameScalar] at hab
    · rename_i x y
      cases x <;> cases y <;> simp [Less, Equal, Run.ret]
    · rename_i x y
      simp only [Less, Equal, Run.ret, Prod.mk.injEq, Outcome.ok.injEq, and_true]
      rcases lt_trichotomy x y with h | h | h
      · exact ⟨true, false, false, by simp [h, ne_of_lt h, not_lt_of_lt h]⟩
      · exact ⟨false, true, false, by simp [h]⟩
      · exact ⟨false, false, true, by simp [h, ne_of_gt h, not_lt_of_lt h]⟩
    · rename_i x y
      simp only [Less, Equal, Run.ret, Prod.mk.injEq, Outcome.ok.injEq, and_true]
      rcases lt_trichotomy x y with h | h | h
      · exact ⟨true, false, false, by simp [h, ne_of_lt h, not_lt_of_lt h]⟩
      · exact ⟨false, true, false, by simp [h]⟩
      · exact ⟨false, false, true, by simp [h, ne_of_gt h, not_lt_of_lt h]⟩
  · intro s t
    simp only [Less, Run.ret, Prod.mk.injEq, Outcome.ok.injEq, and_true, decide_eq_true_eq]
    exact String.lt_iff_toList_lt

/-- C9 at the numbers 1, 2, 3: `1 < 1` is false and from `1 < 2` and `2 < 3` follows
`1 < 3`. -/
theorem Less_strict_total_order_witness :
    sameScalar (.Number 1) (.Number 2) = true ∧ sameScalar (.Number 2) (.Number 3) = true ∧
    Less (Execute 0) (.Number 1) (.Number 1) ⟨"", []⟩ = (.ok false, ⟨"", []⟩) ∧
    Less (Execute 0) (.Number 1) (.Number 3) ⟨"", []⟩ = (.ok true, ⟨"", []⟩) :=
  have h := Less_strict_total_order (Execute 0) ⟨"", []⟩ (.Number 1) (.Number 2) (.Number 3)
    rfl rfl
  ⟨rfl, rfl, h.1, h.2.1 rfl rfl⟩

/-- C10: there is no default ordering.  `Less` throws when either operand is empty, when the
operands are scalars of different variants, and when the left operand is neither a scalar
nor an instance with a one-argument `__lt__`; `Greater`, `LessOrEqual` and `GreaterOrEqual`
end as `Less` does on every pair on which `Less` does not return; so `LessOrEqual` and
`GreaterOrEqual` of two empty holders throw although `Equal` of them is true. -/
theorem Less_fails (E : Executor) (context : Context) :
    (∀ lhs rhs, lhs = .None ∨ rhs = .None →
      Less E lhs rhs context = (.abort lessError, context)) ∧
    (∀ lhs rhs, isScalar lhs = true → isScalar rhs = true → sameScalar lhs rhs = false →
      Less E lhs rhs context = (.abort lessError, context)) ∧
    (∀ lhs rhs, isScalar lhs = false → hasLess lhs = false →
      Less E lhs rhs context = (.abort lessError, context)) ∧
    (∀ lhs rhs e after, Less E lhs rhs context = (.abort e, after) →
      Greater E lhs rhs context = (.abort e, after) ∧
      LessOrEqual E lhs rhs context = (.abort e, after) ∧
      GreaterOrEqual E lhs rhs context = (.abort e, after)) ∧
    (Equal E .None .None context = (.ok true, context) ∧
      LessOrEqual E .None .None context = (.abort lessError, context) ∧
      GreaterOrEqual E .None .None context = (.abort lessError, context)) := by
  refine ⟨?_, ?_, ?_, ?_, rfl, ?_, ?_⟩
  · rintro lhs rhs (h | h)
    · subst h; exact Less_none_left E rhs context
    · subst h; exact Less_none_right E lhs context
  · intro lhs rhs h1 h2 h3
    cases lhs <;> cases rhs <;> simp_all [isScalar, sameScalar, Less, Run.fail, lessError]
  · intro lhs rhs h1 h2
    cases lhs <;> cases rhs <;> simp_all [isScalar, hasLess, Less, Run.fail, lessError]
  · intro lhs rhs e after h
    obtain ⟨h1, h2, h3⟩ := derived_abort E lhs rhs context after e h
    exact ⟨h2, h3, h1⟩
  · exact (derived_abort E .None .None context context lessError rfl).2.2
  · exact (derived_abort E .None .None context context lessError rfl).1

/-! ## Lemmas on the derived comparators -/

theorem derived_values {α : Type} [LinearOrder α] (a b : α) (l e : Bool)
    (hl : l = true ↔ a < b) (he : e = true ↔ a = b) :
    ((!l) && (!e)) = decide (a > b) ∧ (!((!l) && (!e))) = decide (a ≤ b) ∧
    (!l) = decide (a ≥ b) := by
  rcases lt_trichotomy a b with h | h | h
  · have h1 : l = true := hl.mpr h
    simp [h1, not_lt_of_lt h, le_of_lt h, not_le_of_lt h]
  · have h1 : l = false := by
      cases l
      · rfl
      · exact absurd (hl.mp rfl) (by simp [h])
    have h2 : e = true := he.mpr h
    simp [h1, h2, h]
  · have h1 : l = false := by
      cases l
      · rfl
      · exact absurd (hl.mp rfl) (not_lt_of_lt h)
    have h2 : e = false := by
      cases e
      · rfl
      · exact absurd (he.mp rfl) (ne_of_gt h)
    simp [h1, h2, h, le_of_lt h, not_le_of_lt h]

theorem derived_from_Less_Equal (E : Executor) (lhs rhs : ObjectHolder) (context : Context)
    (l e : Bool) (hl : Less E lhs rhs context = (.ok l, context))
    (he : Equal E lhs rhs context = (.ok e, context)) :
    Greater E lhs rhs context = (.ok ((!l) && (!e)), context) ∧
    LessOrEqual E lhs rhs context = (.ok (!((!l) && (!e))), context) ∧
    GreaterOrEqual E lhs rhs context = (.ok (!l), context) := by
  have h1 : GreaterOrEqual E lhs rhs context = (.ok (!l), context) := by
    simp [GreaterOrEqual, Run.andThen, hl, Run.ret]
  have h2 : Greater E lhs rhs context = (.ok ((!l) && (!e)), context) := by
    cases l <;> simp [Greater, Run.andThen, h1, NotEqual, he, Run.ret]
  exact ⟨h2, by simp [LessOrEqual, Run.andThen, h2, Run.ret], h1⟩

theorem derived_on_numbers (E : Executor) (context : Context) (a b : Int) :
    Greater E (.Number a) (.Number b) context = (.ok (decide (a > b)), context) ∧
    LessOrEqual E (.Number a) (.Number b) context = (.ok (decide (a ≤ b)), context) ∧
    GreaterOrEqual E (.Number a) (.Number b) context = (.ok (decide (a ≥ b)), context) := by
  have d := derived_from_Less_Equal E (.Number a) (.Number b) context _ _ rfl rfl
  have v := derived_values a b (decide (a < b)) (decide (a = b)) (by simp) (by simp)
  exact ⟨d.1.trans (by rw [v.1]), d.2.1.trans (by rw [v.2.1]), d.2.2.trans (by rw [v.2.2])⟩

theorem derived_on_strings (E : Executor) (context : Context) (a b : String) :
    Greater E (.String a) (.String b) context = (.ok (decide (a > b)), context) ∧
    LessOrEqual E (.String a) (.String b) context = (.ok (decide (a ≤ b)), context) ∧
    GreaterOrEqual E (.String a) (.String b) context = (.ok (decide (a ≥ b)), context) := by
  have d := derived_from_Less_Equal E (.String a) (.String b) context _ _ rfl rfl
  have v := derived_values a b (decide (a < b)) (decide (a = b))
    decide_eq_true_iff decide_eq_true_iff
  exact ⟨d.1.trans (by rw [v.1]; congr), d.2.1.trans (by rw [v.2.1]),
    d.2.2.trans (by rw [v.2.2])⟩

theorem derived_on_bools (E : Executor) (context : Context) (a b : Bool) :
    Greater E (.Bool a) (.Bool b) context = (.ok (decide (a > b)), context) ∧
    LessOrEqual E (.Bool a) (.Bool b) context = (.ok (decide (a ≤ b)), context) ∧
    GreaterOrEqual E (.Bool a) (.Bool b) context = (.ok (decide (a ≥ b)), context) := by
  cases a <;> cases b <;> exact ⟨rfl, rfl, rfl⟩

/-! ## Lemmas on the arithmetic nodes -/

theorem bothAre_pure (E : Executor) (is : ObjectHolder → Bool) (lhs rhs : Statement)
    (s : Closure × Context) (l r : ObjectHolder)
    (hl : E lhs s = (.ok l, s)) (hr : E rhs s = (.ok r, s)) :
    bothAre E is lhs rhs s = (.ok (is l && is r), s) := by
  cases h : is l <;> simp [bothAre, Run.andThen, hl, hr, h, Run.ret]

theorem numberOperation_pure (E : Executor) (op : Int → Int → Outcome ObjectHolder)
    (lhs rhs : Statement) (s : Closure × Context) (l r : ObjectHolder)
    (hl : E lhs s = (.ok l, s)) (hr : E rhs s = (.ok r, s)) :
    numberOperation E op lhs rhs s =
      match TryAsNumber l, TryAsNumber r with
      | some a, some b => (op a b, s)
      | _, _ => (.abort (.runtime_error ""), s) := by
  simp only [numberOperation, Run.andThen, bothAre_pure E _ lhs rhs s l r hl hr]
  cases l <;> cases r <;>
    simp [TryAsNumber, numberBranch, Run.andThen, hl, hr, Run.fail]

theorem numberOperation_four (E : Executor) (op : Int → Int → Outcome ObjectHolder)
    (lhs rhs : Statement) (s s1 s2 s3 s4 : Closure × Context) (a b c d : Int)
    (h1 : E lhs s = (.ok (.Number a), s1)) (h2 : E rhs s1 = (.ok (.Number b), s2))
    (h3 : E lhs s2 = (.ok (.Number c), s3)) (h4 : E rhs s3 = (.ok (.Number d), s4)) :
    numberOperation E op lhs rhs s = (op c d, s4) := by
  simp [numberOperation, bothAre, numberBranch, Run.andThen, h1, h2, h3, h4, TryAsNumber,
    Run.ret]

theorem toInt_fits (value : Int) (h : fitsInt value = true) : toInt value = value := by
  simp only [fitsInt, INT_MAX, decide_eq_true_eq] at h
  simp only [toInt, INT_MAX]
  omega

theorem tdiv_fits (a b : Int) (ha : fitsInt a = true) (hb : fitsInt b = true) (h0 : b ≠ 0)
    (hq : ¬ (a = -INT_MAX - 1 ∧ b = -1)) : fitsInt (Int.tdiv a b) = true := by
  simp only [fitsInt, INT_MAX, decide_eq_true_eq] at ha hb hq ⊢
  have hn : (Int.tdiv a b).natAbs = a.natAbs / b.natAbs := Int.natAbs_tdiv a b
  by_cases h1 : b = 1
  · subst h1
    rw [Int.tdiv_one]
    exact ha
  · by_cases h2 : b = -1
    · subst h2
      have : Int.tdiv a (-1) = -a := by
        rw [Int.tdiv_neg, Int.tdiv_one]
      rw [this]
      omega
    · have hb2 : 2 ≤ b.natAbs := by omega
      have hle : a.natAbs / b.natAbs ≤ a.natAbs / 2 := Nat.div_le_div_left hb2 (by decide)
      have hsmall : (Int.tdiv a b).natAbs ≤ 1073741824 := by
        rw [hn]
        omega
      generalize Int.tdiv a b = q at hsmall
      omega

theorem Sub_unfold (fuel : Nat) (lhs rhs : Statement) :
    Execute (fuel + 1) (.Sub lhs rhs) =
      numberOperation (Execute fuel) (fun num1 num2 => .ok (.Number (toInt (num1 - num2))))
        lhs rhs := by
  simp only [Execute]

theorem Mult_unfold (fuel : Nat) (lhs rhs : Statement) :
    Execute (fuel + 1) (.Mult lhs rhs) =
      numberOperation (Execute fuel) (fun num1 num2 => .ok (.Number (toInt (num1 * num2))))
        lhs rhs := by
  simp only [Execute]

theorem Div_unfold (fuel : Nat) (lhs rhs : Statement) :
    Execute (fuel + 1) (.Div lhs rhs) = numberOperation (Execute fuel) divide lhs rhs := by
  simp only [Execute]

/-! ## Lemmas on names and fields -/

theorem VariableValueExecute_root (context : Context) :
    ∀ (rest : List String) (id : String) (closure : Closure),
      VariableValueExecute context (id :: rest) closure =
        match lookup id closure with
        | none => .abort (.runtime_error "")
        | some value => resolveFields context value rest
  | [], id, closure => by
    simp only [VariableValueExecute]
    cases lookup id closure <;> rfl
  | next :: rest, id, closure => by
    simp only [VariableValueExecute]
    cases h : lookup id closure with
    | none => rfl
    | some value =>
      cases value with
      | ClassInstance self cls =>
        simp only [resolveFields]
        rw [VariableValueExecute_root context rest next (Fields context self)]
      | _ => rfl

theorem fieldPath_resolves (context : Context) :
    ∀ (rest : List String) (value result : ObjectHolder),
      fieldPath context value rest = some result ↔ resolveFields context value rest = .ok result
  | [], value, result => by
    simp [fieldPath, resolveFields]
  | segment :: rest, value, result => by
    cases value with
    | ClassInstance self cls =>
      simp only [fieldPath, resolveFields]
      cases h : lookup segment (Fields context self) with
      | none => simp
      | some next => exact fieldPath_resolves context rest next result
    | _ => simp [fieldPath, resolveFields]

theorem resolveFields_missing (context : Context) (segment : String) (after : List String)
    (self : Nat) (cls : Class) (hmissing : lookup segment (Fields context self) = none) :
    ∀ (before : List String) (value : ObjectHolder),
      fieldPath context value before = some (.ClassInstance self cls) →
        resolveFields context value (before ++ segment :: after) =
          .abort (.runtime_error "")
  | [], value, h => by
    simp only [fieldPath, Option.some.injEq] at h
    subst h
    simp [resolveFields, hmissing]
  | first :: before, value, h => by
    cases value with
    | ClassInstance inner icls =>
      simp only [fieldPath] at h
      cases hf : lookup first (Fields context inner) with
      | none => simp [hf] at h
      | some next =>
        simp only [hf] at h
        simp only [List.cons_append, resolveFields, hf]
        exact resolveFields_missing context segment after self cls hmissing before next h
    | _ => simp [fieldPath] at h

theorem VariableValue_unfold (fuel : Nat) (id : String) (rest : List String)
    (s : Closure × Context) :
    Execute (fuel + 1) (.VariableValue (id :: rest)) s =
      (match lookup id s.1 with
        | none => .abort (.runtime_error "")
        | some value => resolveFields s.2 value rest, s) := by
  simp only [Execute]
  rw [VariableValueExecute_root]

theorem Fields_setField_self (context : Context) (self : Nat) (key : String)
    (value : ObjectHolder) :
    Fields (setField context self key value) self = assign key value (Fields context self) := by
  simp [Fields, setField, lookup_assign_self]

theorem Fields_setField_other (context : Context) (self other : Nat) (key : String)
    (value : ObjectHolder) (h : other ≠ self) :
    Fields (setField context self key value) other = Fields context other := by
  simp [Fields, setField, lookup_assign_other self other _ _ h]

theorem FieldAssignment_stores (fuel : Nat) (object : List String) (field_name : String)
    (rv : Statement) (s s1 : Closure × Context) (self : Nat) (cls : Class)
    (value : ObjectHolder)
    (h0 : VariableValueExecute s.2 object s.1 = .ok (.ClassInstance self cls))
    (hrv : Execute fuel rv s = (.ok value, s1))
    (h1 : VariableValueExecute s1.2 object s1.1 = .ok (.ClassInstance self cls))
    (h2 : VariableValueExecute (setField s1.2 self field_name value) object s1.1 =
      .ok (.ClassInstance self cls)) :
    Execute (fuel + 1) (.FieldAssignment object field_name rv) s =
      (.ok value, (s1.1, setField s1.2 self field_name value)) := by
  simp only [Execute, h0, Run.andThen, hrv, h1, h2, Fields_setField_self, lookup_assign_self]

theorem FieldAssignment_not_instance (fuel : Nat) (object : List String) (field_name : String)
    (rv : Statement) (s : Closure × Context) (target : ObjectHolder)
    (h0 : VariableValueExecute s.2 object s.1 = .ok target)
    (hn : ∀ self cls, target ≠ .ClassInstance self cls) :
    Execute (fuel + 1) (.FieldAssignment object field_name rv) s =
      (.abort (.runtime_error ""), s) := by
  cases target with
  | ClassInstance self cls => exact absurd rfl (hn self cls)
  | _ => simp only [Execute, h0]

/-! ## Lemmas on printing -/

theorem printArgument_text (E : Executor) (fuel : Nat) (result : ObjectHolder)
    (closure : Closure) (context after : Context) (text : String)
    (h : argumentText E fuel result context = (.ok text, after)) :
    printArgument E fuel result (closure, context) =
      (.ok (), (closure, ⟨after.output ++ text, after.fields⟩)) := by
  cases result <;>
    simp_all [argumentText, printArgument, Run.lift, Run.andThen, write, Run.ret]

theorem printRest_quiet (E : Executor) (fuel : Nat) :
    ∀ (args : List Statement) (σ σ1 : Closure × List (Nat × Closure))
      (values : List ObjectHolder) (texts : List String) (out : String),
      QuietArguments E fuel args σ values texts σ1 →
      printRest E fuel args (σ.1, ⟨out, σ.2⟩) = (.ok (), (σ1.1, ⟨appended out texts, σ1.2⟩))
  | [], σ, σ1, values, texts, out, h => by
    cases h
    rfl
  | arg :: rest, σ, σ1, values, texts, out, h => by
    cases h with
    | cons _ _ _ σa _ fields2 value written text values texts heval htext hrest =>
      have ht := printArgument_text E fuel value σa.1 ⟨out ++ " ", σa.2⟩
        ⟨out ++ " " ++ written, fields2⟩ text (htext (out ++ " "))
      have ih := printRest_quiet E fuel rest (σa.1, fields2) σ1 values texts
        (out ++ " " ++ (written ++ text)) hrest
      have ha : out ++ " " ++ written ++ text = out ++ " " ++ (written ++ text) := by
        simp only [String.append_assoc]
      simp only [printRest, Run.andThen, write, heval (out ++ " "), ht, ha]
      exact ih

theorem spaced_append (first second : String) :
    ∀ texts : List String, spaced ((first ++ second) :: texts) = first ++ spaced (second :: texts)
  | [] => rfl
  | next :: rest => by
    simp only [spaced, String.append_assoc]

theorem appended_spaced (written text : String) :
    ∀ texts : List String,
      appended (written ++ text) texts = written ++ spaced (text :: texts)
  | [] => rfl
  | next :: rest => by
    have h : written ++ text ++ " " ++ next = written ++ (text ++ " " ++ next) := by
      simp only [String.append_assoc]
    rw [appended, h, appended_spaced written (text ++ " " ++ next) rest, spaced_append]
    simp only [spaced]

theorem QuietArguments_length (E : Executor) (fuel : Nat) :
    ∀ (args : List Statement) (σ σ1 : Closure × List (Nat × Closure))
      (values : List ObjectHolder) (texts : List String),
      QuietArguments E fuel args σ values texts σ1 →
      values.length = args.length ∧ texts.length = args.length
  | [], σ, σ1, values, texts, h => by
    cases h
    exact ⟨rfl, rfl⟩
  | arg :: rest, σ, σ1, values, texts, h => by
    cases h with
    | cons _ _ _ σa _ fields2 value written text values texts heval htext hrest =>
      have ih := QuietArguments_length E fuel rest (σa.1, fields2) σ1 values texts hrest
      simp [ih.1, ih.2]

/-! ## Comparison nodes and the derived comparators -/

/-- C11: on two scalars of one variant `Greater`, `LessOrEqual` and `GreaterOrEqual` return
`a > b`, `a <= b` and `a >= b` of the underlying values; and a `Comparison` node, in either
order of its two operands, executes each operand once (the second in the state the first
left) and returns the result of its comparator on the value of the left and the value of the
right operand, wrapped as a `Bool`; an error of an operand ends the node.  The comparator
of the node is one of the six functions of `runtime.cpp`.  With `print(seven)` and
`print(two)` as operands each line is written once, in the order of execution. -/
theorem Comparison_executes_operands_once :
    (∀ (E : Executor) (cmp : Comparator) (lhs rhs : Statement) (s s1 s2 : Closure × Context)
        (l r : ObjectHolder), E lhs s = (.ok l, s1) → E rhs s1 = (.ok r, s2) →
      ComparisonExecute false E cmp lhs rhs s =
        match applyComparator cmp E l r s2.2 with
        | (.ok result, context) => (.ok (.Bool result), (s2.1, context))
        | (.abort e, context) => (.abort e, (s2.1, context))) ∧
    (∀ (E : Executor) (cmp : Comparator) (lhs rhs : Statement) (s s1 s2 : Closure × Context)
        (l r : ObjectHolder), E rhs s = (.ok r, s1) → E lhs s1 = (.ok l, s2) →
      ComparisonExecute true E cmp lhs rhs s =
        match applyComparator cmp E l r s2.2 with
        | (.ok result, context) => (.ok (.Bool result), (s2.1, context))
        | (.abort e, context) => (.abort e, (s2.1, context))) ∧
    (∀ (E : Executor) (cmp : Comparator) (lhs rhs : Statement) (s s1 s2 : Closure × Context)
        (e : Abort) (value : ObjectHolder),
      (E lhs s = (.abort e, s1) → ComparisonExecute false E cmp lhs rhs s = (.abort e, s1)) ∧
      (E rhs s = (.abort e, s1) → ComparisonExecute true E cmp lhs rhs s = (.abort e, s1)) ∧
      (E lhs s = (.ok value, s1) → E rhs s1 = (.abort e, s2) →
        ComparisonExecute false E cmp lhs rhs s = (.abort e, s2)) ∧
      (E rhs s = (.ok value, s1) → E lhs s1 = (.abort e, s2) →
        ComparisonExecute true E cmp lhs rhs s = (.abort e, s2))) ∧
    (∀ (fuel : Nat) (cmp : Comparator) (lhs rhs : Statement),
      Execute (fuel + 1) (.Comparison cmp lhs rhs) =
        ComparisonExecute LAST_ARGUMENT_FIRST (Execute fuel) cmp lhs rhs) ∧
    (∀ (E : Executor),
      applyComparator .Equal E = Equal E ∧ applyComparator .NotEqual E = NotEqual E ∧
      applyComparator .Less E = Less E ∧ applyComparator .Greater E = Greater E ∧
      applyComparator .LessOrEqual E = LessOrEqual E ∧
      applyComparator .GreaterOrEqual E = GreaterOrEqual E) ∧
    (∀ (E : Executor) (context : Context),
      (∀ a b : Bool,
        Greater E (.Bool a) (.Bool b) context = (.ok (decide (a > b)), context) ∧
        LessOrEqual E (.Bool a) (.Bool b) context = (.ok (decide (a ≤ b)), context) ∧
        GreaterOrEqual E (.Bool a) (.Bool b) context = (.ok (decide (a ≥ b)), context)) ∧
      (∀ a b : Int,
        Greater E (.Number a) (.Number b) context = (.ok (decide (a > b)), context) ∧
        LessOrEqual E (.Number a) (.Number b) context = (.ok (decide (a ≤ b)), context) ∧
        GreaterOrEqual E (.Number a) (.Number b) context = (.ok (decide (a ≥ b)), context)) ∧
      (∀ a b : String,
        Greater E (.String a) (.String b) context = (.ok (decide (a > b)), context) ∧
        LessOrEqual E (.String a) (.String b) context = (.ok (decide (a ≤ b)), context) ∧
        GreaterOrEqual E (.String a) (.String b) context =
          (.ok (decide (a ≥ b)), context))) ∧
    (ComparisonExecute false (Execute 2) .Greater printSeven printTwo valuesState =
        (.ok (.Bool false), (valuesState.1, ⟨"-7\n2\n", []⟩)) ∧
      ComparisonExecute true (Execute 2) .Greater printSeven printTwo valuesState =
        (.ok (.Bool false), (valuesState.1, ⟨"2\n-7\n", []⟩)) ∧
      ComparisonExecute false (Execute 2) .LessOrEqual printSeven printTwo valuesState =
        (.ok (.Bool true), (valuesState.1, ⟨"-7\n2\n", []⟩)) ∧
      ComparisonExecute true (Execute 2) .LessOrEqual printSeven printTwo valuesState =
        (.ok (.Bool true), (valuesState.1, ⟨"2\n-7\n", []⟩)) ∧
      Execute 3 (.Comparison .GreaterOrEqual printSeven printTwo) valuesState =
        (.ok (.Bool false), (valuesState.1, ⟨"2\n-7\n", []⟩))) := by
  refine ⟨?_, ?_, ?_, fun _ _ _ _ => rfl, fun _ => ⟨rfl, rfl, rfl, rfl, rfl, rfl⟩,
    fun E context =>
      ⟨derived_on_bools E context, derived_on_numbers E context, derived_on_strings E context⟩,
    ⟨rfl, rfl, rfl, rfl, rfl⟩⟩
  · intro E cmp lhs rhs s s1 s2 l r hl hr
    simp only [ComparisonExecute, Run.andThen, hl, hr, Run.lift, Bool.false_eq_true, if_false]
    rcases applyComparator cmp E l r s2.2 with ⟨o, c⟩
    cases o <;> rfl
  · intro E cmp lhs rhs s s1 s2 l r hr hl
    simp only [ComparisonExecute, Run.andThen, hl, hr, Run.lift, if_true]
    rcases applyComparator cmp E l r s2.2 with ⟨o, c⟩
    cases o <;> rfl
  · intro E cmp lhs rhs s s1 s2 e value
    refine ⟨?_, ?_, ?_, ?_⟩
    · intro h
      simp [ComparisonExecute, Run.andThen, h]
    · intro h
      simp [ComparisonExecute, Run.andThen, h]
    · intro h1 h2
      simp [ComparisonExecute, Run.andThen, h1, h2]
    · intro h1 h2
      simp [ComparisonExecute, Run.andThen, h1, h2]

/-! ## Repeated evaluation of operands -/

/-- C12, as the code behaves: with `c.get()` writing one line per call, one execution of
`str(c.get())` writes two lines, and one execution of `c.get() + c.get()`, `-`, `*` or `/`
writes four lines: `Stringify` executes its operand twice and the arithmetic nodes execute
each of two numeric operands twice (the result, an `int`, is computed from the second
round). -/
theorem operands_executed_repeatedly :
    ((Execute 6 tick tickState).2.2.output = "\n" ∧
      (Execute 7 (.Stringify tick) tickState).2.2.output = "\n\n" ∧
      (Execute 7 (.Add tick tick) tickState).2.2.output = "\n\n\n\n" ∧
      (Execute 7 (.Sub tick tick) tickState).2.2.output = "\n\n\n\n" ∧
      (Execute 7 (.Mult tick tick) tickState).2.2.output = "\n\n\n\n" ∧
      (Execute 7 (.Div tick tick) tickState).2.2.output = "\n\n\n\n" ∧
      (Execute 7 (.Stringify tick) tickState).1 = .ok (.String "3") ∧
      (Execute 7 (.Sub tick tick) tickState).1 = .ok (.Number 0)) ∧
    (∀ (fuel : Nat) (lhs rhs : Statement) (s s1 s2 s3 s4 : Closure × Context) (a b c d : Int),
      Execute fuel lhs s = (.ok (.Number a), s1) → Execute fuel rhs s1 = (.ok (.Number b), s2) →
      Execute fuel lhs s2 = (.ok (.Number c), s3) → Execute fuel rhs s3 = (.ok (.Number d), s4) →
      Execute (fuel + 1) (.Sub lhs rhs) s = (.ok (.Number (toInt (c - d))), s4)) := by
  refine ⟨⟨rfl, rfl, rfl, rfl, rfl, rfl, rfl, rfl⟩, ?_⟩
  intro fuel lhs rhs s s1 s2 s3 s4 a b c d h1 h2 h3 h4
  rw [Sub_unfold, numberOperation_four (Execute fuel) _ lhs rhs s s1 s2 s3 s4 a b c d h1 h2 h3 h4]

/-! ## Arithmetic -/

/-- C14, amended: for operands that evaluate to `l` and `r` without changing the state,
`Sub` and `Mult` return the difference and the product of two numbers when that result is
an `int` (from -2147483648 to 2147483647); `Div` returns the quotient truncated toward zero
when the divisor is not 0 and the quotient is an `int`, and throws when the divisor is 0;
all three throw the same exception when an operand is not a number.  The quotient
`Int.tdiv` has the magnitude of the quotient of the magnitudes and the sign of the exact
quotient, and the quotient of two `int`s is an `int` except for -2147483648 / -1. -/
theorem Sub_Mult_Div_on_pure_operands (fuel : Nat) (lhs rhs : Statement)
    (s : Closure × Context) (l r : ObjectHolder) (hl : Execute fuel lhs s = (.ok l, s))
    (hr : Execute fuel rhs s = (.ok r, s)) :
    (∀ a b, l = .Number a → r = .Number b →
      (fitsInt (a - b) = true →
        Execute (fuel + 1) (.Sub lhs rhs) s = (.ok (.Number (a - b)), s)) ∧
      (fitsInt (a * b) = true →
        Execute (fuel + 1) (.Mult lhs rhs) s = (.ok (.Number (a * b)), s)) ∧
      (b ≠ 0 → fitsInt (Int.tdiv a b) = true →
        Execute (fuel + 1) (.Div lhs rhs) s = (.ok (.Number (Int.tdiv a b)), s)) ∧
      (b = 0 → Execute (fuel + 1) (.Div lhs rhs) s = (.abort (.runtime_error ""), s))) ∧
    (TryAsNumber l = none ∨ TryAsNumber r = none →
      Execute (fuel + 1) (.Sub lhs rhs) s = (.abort (.runtime_error ""), s) ∧
      Execute (fuel + 1) (.Mult lhs rhs) s = (.abort (.runtime_error ""), s) ∧
      Execute (fuel + 1) (.Div lhs rhs) s = (.abort (.runtime_error ""), s)) ∧
    (∀ a b : Int, (Int.tdiv a b).natAbs = a.natAbs / b.natAbs ∧
      (0 ≤ a → 0 ≤ b → 0 ≤ Int.tdiv a b) ∧ (a ≤ 0 → 0 ≤ b → Int.tdiv a b ≤ 0) ∧
      (0 ≤ a → b ≤ 0 → Int.tdiv a b ≤ 0) ∧ (a ≤ 0 → b ≤ 0 → 0 ≤ Int.tdiv a b)) ∧
    (∀ a b : Int, fitsInt a = true → fitsInt b = true → b ≠ 0 →
      ¬ (a = -2147483648 ∧ b = -1) → fitsInt (Int.tdiv a b) = true) := by
  rw [Sub_unfold, Mult_unfold, Div_unfold]
  simp only [numberOperation_pure (Execute fuel) _ lhs rhs s l r hl hr]
  refine ⟨?_, ?_, ?_, fun a b ha hb h0 hq => tdiv_fits a b ha hb h0 hq⟩
  · intro a b h1 h2
    subst h1 h2
    refine ⟨?_, ?_, ?_, ?_⟩
    · intro hfits; simp [TryAsNumber, toInt_fits _ hfits]
    · intro hfits; simp [TryAsNumber, toInt_fits _ hfits]
    · intro hb hfits; simp [TryAsNumber, divide, hb, hfits]
    · intro hb; simp [TryAsNumber, divide, hb]
  · rintro (h | h)
    · cases l <;> simp_all [TryAsNumber]
    · cases r <;> cases l <;> simp_all [TryAsNumber]
  · intro a b
    refine ⟨Int.natAbs_tdiv a b, Int.tdiv_nonneg, ?_, Int.tdiv_nonpos, ?_⟩
    · intro ha hb
      have h := Int.tdiv_nonneg (Int.neg_nonneg_of_nonpos ha) hb
      rw [Int.neg_tdiv] at h
      omega
    · intro ha hb
      have h := Int.tdiv_nonneg (Int.neg_nonneg_of_nonpos ha) (Int.neg_nonneg_of_nonpos hb)
      rw [Int.neg_tdiv_neg] at h
      exact h

/-- C14 at -7 and 2: the quotient is -3 (truncated toward zero, not -4). -/
theorem Sub_Mult_Div_on_pure_operands_witness :
    Execute 2 (.Div (.VariableValue ["seven"]) (.VariableValue ["two"])) valuesState =
      (.ok (.Number (-3)), valuesState) :=
  ((Sub_Mult_Div_on_pure_operands 1 (.VariableValue ["seven"]) (.VariableValue ["two"])
    valuesState (.Number (-7)) (.Number 2) rfl rfl).1 (-7) 2 rfl rfl).2.2.1 (by decide)
    (by decide)

/-- C14 as stated does not hold: `big * big` with `big` = 100000 is the number 1410065408,
not 10000000000; `smallest - one` with `smallest` = -2147483648 is the number 2147483647;
and `smallest / minus` with `minus` = -1, whose quotient 2147483648 is no `int`, does not
return a number. -/
theorem Mult_Sub_Div_leave_the_range :
    Execute 2 (.Mult (.VariableValue ["big"]) (.VariableValue ["big"])) limitsState =
      (.ok (.Number 1410065408), limitsState) ∧
    Execute 2 (.Sub (.VariableValue ["smallest"]) (.VariableValue ["one"])) limitsState =
      (.ok (.Number 2147483647), limitsState) ∧
    Execute 2 (.Div (.VariableValue ["smallest"]) (.VariableValue ["minus"])) limitsState =
      (.abort .undefined_behaviour, limitsState) :=
  ⟨rfl, rfl, rfl⟩

/-! ## Boolean operators -/

/-- C15: when the left operand of `Or` is truthy the node returns `True` in the state the
left operand left, whatever the right operand is (it is not executed); when the left operand
of `And` is falsy the node returns `False` likewise; in the remaining cases the right
operand is executed once, in the state the left one left, and the result is the truthiness of
its value. -/
theorem Or_And_short_circuit (fuel : Nat) (lhs rhs : Statement) (s s1 : Closure × Context)
    (l : ObjectHolder) (hl : Execute fuel lhs s = (.ok l, s1)) :
    (IsTrue l = true → Execute (fuel + 1) (.Or lhs rhs) s = (.ok (.Bool true), s1)) ∧
    (IsTrue l = false → Execute (fuel + 1) (.And lhs rhs) s = (.ok (.Bool false), s1)) ∧
    (IsTrue l = false → ∀ r s2, Execute fuel rhs s1 = (.ok r, s2) →
      Execute (fuel + 1) (.Or lhs rhs) s = (.ok (.Bool (IsTrue r)), s2)) ∧
    (IsTrue l = true → ∀ r s2, Execute fuel rhs s1 = (.ok r, s2) →
      Execute (fuel + 1) (.And lhs rhs) s = (.ok (.Bool (IsTrue r)), s2)) := by
  refine ⟨?_, ?_, ?_, ?_⟩
  · intro h
    simp [Execute, Run.andThen, hl, h, Run.ret]
  · intro h
    simp [Execute, Run.andThen, hl, h, Run.ret]
  · intro h r s2 hr
    simp [Execute, Run.andThen, hl, h, hr, Run.ret]
  · intro h r s2 hr
    simp [Execute, Run.andThen, hl, h, hr, Run.ret]

/-- C15 at `flag or print(flag)` with a true `flag`: the result is `True` and nothing is
written. -/
theorem Or_And_short_circuit_witness :
    Execute 3 (.Or (.VariableValue ["flag"]) (.Print [.VariableValue ["flag"]])) valuesState =
      (.ok (.Bool true), valuesState) :=
  (Or_And_short_circuit 2 (.VariableValue ["flag"]) (.Print [.VariableValue ["flag"]])
    valuesState valuesState (.Bool true) rfl).1 rfl

/-! ## Names and dotted chains -/

/-- C16, amended: `VariableValue` on `x0.x1...xn` throws its exception when `x0` is not
bound in the closure (for a single identifier this is its only failure), and the same
exception when `x0` is bound, the values up to some segment are instances and that segment
is not a field of the instance before it; when `x0` is bound the outcome is that of looking
up the later segments, each in the fields of the previous instance; when every value on the
way is an instance that has the next segment as a field the node returns the value at the
end of the chain; and the closure and all fields are left unchanged. -/
theorem VariableValue_resolves (fuel : Nat) (id : String) (rest : List String)
    (s : Closure × Context) :
    (lookup id s.1 = none →
      Execute (fuel + 1) (.VariableValue (id :: rest)) s = (.abort (.runtime_error ""), s)) ∧
    (isError (Execute (fuel + 1) (.VariableValue [id]) s).1 = true ↔ lookup id s.1 = none) ∧
    (∀ value before segment after self cls, lookup id s.1 = some value →
      rest = before ++ segment :: after →
      fieldPath s.2 value before = some (.ClassInstance self cls) →
      lookup segment (Fields s.2 self) = none →
        Execute (fuel + 1) (.VariableValue (id :: rest)) s =
          (.abort (.runtime_error ""), s)) ∧
    (∀ value, lookup id s.1 = some value →
      Execute (fuel + 1) (.VariableValue (id :: rest)) s = (resolveFields s.2 value rest, s)) ∧
    (∀ value, lookup id s.1 = some value →
      Execute (fuel + 1) (.VariableValue [id]) s = (.ok value, s)) ∧
    (∀ value result, lookup id s.1 = some value → fieldPath s.2 value rest = some result →
      Execute (fuel + 1) (.VariableValue (id :: rest)) s = (.ok result, s)) ∧
    (Execute (fuel + 1) (.VariableValue (id :: rest)) s).2 = s := by
  refine ⟨?_, ?_, ?_, ?_, ?_, ?_, ?_⟩
  · intro hn
    rw [VariableValue_unfold, hn]
  · rw [VariableValue_unfold]
    cases lookup id s.1 <;> simp [isError, resolveFields]
  · intro value before segment after self cls hv hrest hpath hmissing
    rw [VariableValue_unfold, hv, hrest]
    simp only [resolveFields_missing s.2 segment after self cls hmissing before value hpath]
  · intro value hv
    rw [VariableValue_unfold, hv]
  · intro value hv
    rw [VariableValue_unfold, hv]
    rfl
  · intro value result hv hp
    rw [VariableValue_unfold, hv]
    simp only [(fieldPath_resolves s.2 rest value result).mp hp]
  · rw [VariableValue_unfold]

/-- C16 at `a.x` after `a = Point()`, `b = Point()`, `a.x = one`: the chain resolves to 1
and the state is unchanged. -/
theorem VariableValue_resolves_witness :
    Execute 1 (.VariableValue ["a", "x"]) twoPointsState = (.ok (.Number 1), twoPointsState) :=
  (VariableValue_resolves 0 "a" ["x"] twoPointsState).2.2.2.2.2.1
    (.ClassInstance 1 classPoint) (.Number 1) rfl rfl

/-- C16 as stated does not hold: after `a = Point()`, `b = Point()`, `a.x = one` the name
`b` is bound, and `b.x` ends with the exception that an unbound name ends with. -/
theorem VariableValue_fails_with_bound_root :
    lookup "b" twoPointsState.1 = some (.ClassInstance 2 classPoint) ∧
    Execute 1 (.VariableValue ["b", "x"]) twoPointsState =
      (.abort (.runtime_error ""), twoPointsState) ∧
    Execute 1 (.VariableValue ["c", "x"]) twoPointsState =
      (.abort (.runtime_error ""), twoPointsState) :=
  ⟨rfl, rfl, rfl⟩

/-- C17, as the code behaves: when the value of a segment that is followed by another
segment is not an instance (empty, `Bool`, `Number`, `String` or `Class`),
`VariableValue::Execute` calls `Fields()` through the null pointer `TryAs` returned, which is
undefined behaviour, not a reported error; `one.y` with `one` bound to 1 is such a chain.  A
segment that is not a field of the instance reached is reported by an exception, and after
`a = Point()`, `b = Point()`, `a.x = one` from two constructor expressions `b.x` throws. -/
theorem VariableValue_dereferences_non_instance :
    (∀ (fuel : Nat) (id next : String) (rest : List String) (s : Closure × Context)
        (value : ObjectHolder), lookup id s.1 = some value →
      (∀ self cls, value ≠ .ClassInstance self cls) →
      Execute (fuel + 1) (.VariableValue (id :: next :: rest)) s =
        (.abort .undefined_behaviour, s)) ∧
    Execute 1 (.VariableValue ["one", "y"]) startState =
      (.abort .undefined_behaviour, startState) ∧
    (∀ (fuel : Nat) (id next : String) (rest : List String) (s : Closure × Context)
        (self : Nat) (cls : Class), lookup id s.1 = some (.ClassInstance self cls) →
      lookup next (Fields s.2 self) = none →
      Execute (fuel + 1) (.VariableValue (id :: next :: rest)) s =
        (.abort (.runtime_error ""), s)) ∧
    Execute 3 twoPointsProgram startState = (.ok .None, twoPointsState) ∧
    Execute 1 (.VariableValue ["b", "x"]) twoPointsState =
      (.abort (.runtime_error ""), twoPointsState) := by
  refine ⟨?_, rfl, ?_, rfl, rfl⟩
  · intro fuel id next rest s value hv hn
    rw [VariableValue_unfold, hv]
    cases value with
    | ClassInstance self cls => exact absurd rfl (hn self cls)
    | _ => rfl
  · intro fuel id next rest s self cls hv hf
    rw [VariableValue_unfold, hv]
    simp only [resolveFields, hf]

/-! ## Field assignment -/

/-- C18, as the code behaves: `FieldAssignment::Execute` resolves its target three times, the
last time after the store.  When the target resolves to the same instance each time, the
node stores the value under the field, leaves the other fields of that instance and the
fields of every other instance unchanged, and returns the value (a target of one identifier
always resolves the same after the store); when the first resolution gives a value that is
not an instance the node throws.  But in `a = Point()`, `a.x = a`, `a.x.x = one` the store
changes what `a.x` resolves to: the field is stored, and the node then calls `Fields()`
through a null pointer instead of returning the value. -/
theorem FieldAssignment_resolves_target_again :
    (∀ (fuel : Nat) (object : List String) (field_name : String) (rv : Statement)
        (s s1 : Closure × Context) (self : Nat) (cls : Class) (value : ObjectHolder),
      VariableValueExecute s.2 object s.1 = .ok (.ClassInstance self cls) →
      Execute fuel rv s = (.ok value, s1) →
      VariableValueExecute s1.2 object s1.1 = .ok (.ClassInstance self cls) →
      VariableValueExecute (setField s1.2 self field_name value) object s1.1 =
        .ok (.ClassInstance self cls) →
      Execute (fuel + 1) (.FieldAssignment object field_name rv) s =
        (.ok value, (s1.1, setField s1.2 self field_name value)) ∧
      lookup field_name (Fields (setField s1.2 self field_name value) self) = some value ∧
      (∀ other, other ≠ field_name →
        lookup other (Fields (setField s1.2 self field_name value) self) =
          lookup other (Fields s1.2 self)) ∧
      (∀ address, address ≠ self →
        Fields (setField s1.2 self field_name value) address = Fields s1.2 address)) ∧
    (∀ (context other : Context) (id : String) (closure : Closure),
      VariableValueExecute context [id] closure = VariableValueExecute other [id] closure) ∧
    (∀ (fuel : Nat) (object : List String) (field_name : String) (rv : Statement)
        (s : Closure × Context) (target : ObjectHolder),
      VariableValueExecute s.2 object s.1 = .ok target →
      (∀ self cls, target ≠ .ClassInstance self cls) →
      Execute (fuel + 1) (.FieldAssignment object field_name rv) s =
        (.abort (.runtime_error ""), s)) ∧
    Execute 3 selfReferenceProgram startState =
      (.abort .undefined_behaviour,
        ([("one", .Number 1), ("a", .ClassInstance 1 classPoint)],
          ⟨"", [(1, [("x", .Number 1)])]⟩)) := by
  refine ⟨?_, ?_, ?_, rfl⟩
  · intro fuel object field_name rv s s1 self cls value h0 hrv h1 h2
    refine ⟨FieldAssignment_stores fuel object field_name rv s s1 self cls value h0 hrv h1 h2,
      ?_, ?_, ?_⟩
    · rw [Fields_setField_self, lookup_assign_self]
    · intro other ho
      rw [Fields_setField_self, lookup_assign_other field_name other value _ ho]
    · intro address hi
      exact Fields_setField_other s1.2 self address field_name value hi
  · intro context other id closure
    simp only [VariableValueExecute]
  · intro fuel object field_name rv s target h0 hn
    exact FieldAssignment_not_instance fuel object field_name rv s target h0 hn

/-! ## Printing -/

/-- C19: when the arguments of a `Print` node evaluate, in order, to results with the printed
forms `texts` and write nothing themselves, executing the node appends to the output exactly
those texts separated by single spaces and followed by one newline (one text for each
argument; without arguments just the newline); the printed form of an empty result is `None`
and that of a `Bool` is `True` or `False`.  The node returns the first result. -/
theorem Print_output (fuel : Nat) (args : List Statement)
    (σ σ1 : Closure × List (Nat × Closure)) (values : List ObjectHolder)
    (texts : List String) (out : String)
    (h : QuietArguments (Execute fuel) fuel args σ values texts σ1) :
    Execute (fuel + 1) (.Print args) (σ.1, ⟨out, σ.2⟩) =
      (.ok (values.headD .None), (σ1.1, ⟨out ++ spaced texts ++ "\n", σ1.2⟩)) ∧
    texts.length = args.length ∧
    (∀ (E : Executor) (context : Context),
      argumentText E fuel .None context = (.ok "None", context) ∧
      argumentText E fuel (.Bool true) context = (.ok "True", context) ∧
      argumentText E fuel (.Bool false) context = (.ok "False", context)) ∧
    (spaced [] = "" ∧ (∀ text, spaced [text] = text) ∧
      ∀ text next rest, spaced (text :: next :: rest) = text ++ " " ++ spaced (next :: rest)) := by
  refine ⟨?_, (QuietArguments_length _ fuel args σ σ1 values texts h).2,
    fun E context => by cases fuel <;> exact ⟨rfl, rfl, rfl⟩, rfl, fun _ => rfl,
    fun _ _ _ => rfl⟩
  cases h with
  | nil =>
    simp [Execute, Run.andThen, write, Run.ret, spaced]
  | cons arg rest _ σa _ fields2 value written text values texts heval htext hrest =>
    have ht := printArgument_text (Execute fuel) fuel value σa.1 ⟨out, σa.2⟩
      ⟨out ++ written, fields2⟩ text (htext out)
    have hr := printRest_quiet (Execute fuel) fuel rest (σa.1, fields2) σ1 values texts
      (out ++ (written ++ text)) hrest
    have ha : out ++ written ++ text = out ++ (written ++ text) := by
      simp only [String.append_assoc]
    simp only [Execute, Run.andThen, write, heval out, ht, ha, hr, Run.ret, List.headD_cons,
      appended_spaced]

/-- C19 at `print(two, e, flag)` with `e` an empty result: the line `2 None True` is
appended. -/
theorem Print_output_witness :
    Execute 2 (.Print [.VariableValue ["two"], .Compound [], .VariableValue ["flag"]])
        valuesState =
      (.ok (.Number 2), (valuesState.1, ⟨"2 None True\n", []⟩)) :=
  (Print_output 1 [.VariableValue ["two"], .Compound [], .VariableValue ["flag"]]
    (valuesState.1, []) (valuesState.1, []) [.Number 2, .None, .Bool true]
    ["2", "None", "True"] ""
    (.cons _ _ _ (valuesState.1, []) _ [] (.Number 2) "" "2" _ _ (fun _ => rfl)
      (fun out => by rw [String.append_empty]; rfl)
      (.cons _ _ _ (valuesState.1, []) _ [] .None "" "None" _ _ (fun _ => rfl)
        (fun out => by rw [String.append_empty]; rfl)
        (.cons _ _ _ (valuesState.1, []) _ [] (.Bool true) "" "True" _ _ (fun _ => rfl)
          (fun out => by rw [String.append_empty]; rfl) (.nil _))))).1

/-- C20, amended: the printed form of a `Class` value with name `s` is the text `Class `
followed by `s`: this is what `Print` of the object writes, what a `Print` node writes for
it (before the newline) and what `Stringify` returns. -/
theorem Class_printed_form (fuel : Nat) (cls : Class) :
    (∀ (E : Executor) (context : Context),
      Print E fuel (.Class cls) context = (.ok ("Class " ++ cls.name), context)) ∧
    (∀ (arg : Statement) (s s1 : Closure × Context),
      Execute fuel arg s = (.ok (.Class cls), s1) →
      Execute (fuel + 1) (.Print [arg]) s =
        (.ok (.Class cls),
          (s1.1, ⟨s1.2.output ++ ("Class " ++ cls.name) ++ "\n", s1.2.fields⟩))) ∧
    (∀ (arg : Statement) (s s1 s2 : Closure × Context) (first : Class),
      Execute fuel arg s = (.ok (.Class first), s1) →
      Execute fuel arg s1 = (.ok (.Class cls), s2) →
      Execute (fuel + 1) (.Stringify arg) s = (.ok (.String ("Class " ++ cls.name)), s2)) := by
  refine ⟨fun E context => ?_, ?_, ?_⟩
  · cases fuel <;> rfl
  · intro arg s s1 h
    have hp : Print (Execute fuel) fuel (.Class cls) s1.2 =
        (.ok ("Class " ++ cls.name), s1.2) := by
      cases fuel <;> rfl
    simp [Execute, Run.andThen, h, printArgument, Run.lift, hp, write, printRest, Run.ret]
  · intro arg s s1 s2 first h1 h2
    have hp : Print (Execute fuel) fuel (.Class cls) s2.2 =
        (.ok ("Class " ++ cls.name), s2.2) := by
      cases fuel <;> rfl
    simp [Execute, Run.andThen, h1, h2, Run.lift, hp, Run.ret]

/-- C20 as stated fails on `class Point`: `Stringify` of the class returns the string
`Class Point`, not its name `Point`, and `Print` writes `Class Point`. -/
theorem Class_printed_form_is_not_the_name :
    (Execute 2 (.Stringify (.ClassDefinition (.Class classPoint))) startState).1 =
      .ok (.String "Class Point") ∧
    (Execute 2 (.Print [.ClassDefinition (.Class classPoint)]) startState).2.2.output =
      "Class Point\n" ∧
    ¬ ((Execute 2 (.Stringify (.ClassDefinition (.Class classPoint))) startState).1 =
      .ok (.String classPoint.name)) := by
  refine ⟨rfl, rfl, ?_⟩
  intro h
  have e : (Execute 2 (.Stringify (.ClassDefinition (.Class classPoint))) startState).1 =
      .ok (.String "Class Point") := rfl
  rw [e] at h
  injection h with h
  injection h with h
  exact absurd h (by decide)

/-! ## Lemmas on the chain of a class -/

theorem findMethod_mem (n : String) (ms : List Method) (m : Method)
    (h : findMethod n ms = some m) : m ∈ ms := by
  induction ms with
  | nil => simp [findMethod] at h
  | cons x xs ih =>
    by_cases hx : x.name = n
    · simp [findMethod, hx] at h
      simp [h]
    · simp [findMethod, hx] at h
      simp [ih h]

theorem GetMethod_mem_chain : ∀ (c : Class) (n : String) (m : Method),
    c.GetMethod n = some m → ∃ k ∈ c.chain, m ∈ k.methods
  | .mk name methods none, n, m, h => by
    rw [Class.GetMethod] at h
    cases hf : findMethod n methods with
    | none => simp [hf] at h
    | some found =>
      simp [hf] at h
      subst h
      exact ⟨.mk name methods none, by simp [Class.chain], findMethod_mem n methods found hf⟩
  | .mk name methods (some p), n, m, h => by
    rw [Class.GetMethod] at h
    cases hf : findMethod n methods with
    | none =>
      simp [hf] at h
      obtain ⟨k, hk, hm⟩ := GetMethod_mem_chain p n m h
      exact ⟨k, by simp [Class.chain, hk], hm⟩
    | some found =>
      simp [hf] at h
      subst h
      exact ⟨.mk name methods (some p), by simp [Class.chain],
        findMethod_mem n methods found hf⟩

/-! ## Method calls -/

/-- C21, amended: a `MethodCall` node executes its argument expressions from left to right,
each once, and then its target expression; when the value of the target is an instance, the
node returns the result of `Call` on that instance with the values of the arguments, in the
state the target left.  An error in an argument ends the node before the target is
executed. -/
theorem MethodCall_arguments_then_target (fuel : Nat) (object : Statement) (method : String)
    (args : List Statement) (s s1 s2 : Closure × Context) (values : List ObjectHolder)
    (self : Nat) (cls : Class)
    (hargs : ExecuteAll (Execute fuel) args s = (.ok values, s1))
    (htarget : Execute fuel object s1 = (.ok (.ClassInstance self cls), s2)) :
    Execute (fuel + 1) (.MethodCall object method args) s =
        Run.lift (ClassInstance.Call (Execute fuel) self cls method values) s2 ∧
    (∀ (E : Executor) (state : Closure × Context), ExecuteAll E [] state = (.ok [], state)) ∧
    (∀ (E : Executor) (arg : Statement) (rest : List Statement) (state : Closure × Context),
      ExecuteAll E (arg :: rest) state =
        match E arg state with
        | (.ok value, after) =>
          (match ExecuteAll E rest after with
            | (.ok others, last) => (.ok (value :: others), last)
            | (.abort e, last) => (.abort e, last))
        | (.abort e, after) => (.abort e, after)) ∧
    (∀ (others : List Statement) (state failed : Closure × Context) (e : Abort),
      ExecuteAll (Execute fuel) others state = (.abort e, failed) →
        Execute (fuel + 1) (.MethodCall object method others) state = (.abort e, failed)) := by
  refine ⟨?_, fun _ _ => rfl, ?_, ?_⟩
  · simp [Execute, Run.andThen, hargs, htarget]
  · intro E arg rest state
    simp only [ExecuteAll, Run.andThen, Run.ret]
    rcases E arg state with ⟨(value | e), after⟩
    · simp only
      rcases ExecuteAll E rest after with ⟨(others | e), last⟩ <;> rfl
    · rfl
  · intro others state failed e h
    simp [Execute, Run.andThen, h]

/-- C21 at `c.me().id(c.get())`: the argument `c.get()` is executed in the start state, the
target `c.me()` after it, and the node returns what `id` returns on the value of the
argument. -/
theorem MethodCall_arguments_then_target_witness :
    Execute 6 echoCall echoState =
      Run.lift (ClassInstance.Call (Execute 5) 5 classEcho "id" [.Number 3])
        ([("c", .ClassInstance 5 classEcho)], ⟨"\n3\n", [(5, [("v", .Number 3)])]⟩) :=
  (MethodCall_arguments_then_target 5 (.MethodCall (.VariableValue ["c"]) "me" []) "id"
    [.MethodCall (.VariableValue ["c"]) "get" []] echoState
    ([("c", .ClassInstance 5 classEcho)], ⟨"\n", [(5, [("v", .Number 3)])]⟩)
    ([("c", .ClassInstance 5 classEcho)], ⟨"\n3\n", [(5, [("v", .Number 3)])]⟩)
    [.Number 3] 5 classEcho rfl rfl).1

/-- C21 as stated does not hold.  In `c.me().id(c.get())` the argument writes its empty
line before the target writes `3`, so the arguments are executed before the target; and in
`c.v.id(c.get())`, whose target is a number, the argument has been executed (its line is
written) when the node dereferences the null pointer `TryAs<ClassInstance>()` gave. -/
theorem MethodCall_executes_arguments_first :
    Execute 6 echoCall echoState =
      (.ok (.Number 3),
        ([("c", .ClassInstance 5 classEcho)], ⟨"\n3\n", [(5, [("v", .Number 3)])]⟩)) ∧
    Execute 6 numberCall echoState =
      (.abort .undefined_behaviour,
        ([("c", .ClassInstance 5 classEcho)], ⟨"\n", [(5, [("v", .Number 3)])]⟩)) :=
  ⟨rfl, rfl⟩

/-! ## Equality of instances -/

/-- C24, as the code behaves: on two instances where the class of the left one has a
one-argument `__eq__`, `Equal` calls that method once with the right instance; a `Bool`
result is returned as it is, an error of the call is passed on, and on every other result
(number, string, empty, class, instance) `TryAs<Bool>()` gives a null pointer that is
dereferenced.  With `class Loose` whose `__eq__` returns the number 3, `Equal` does not
return true. -/
theorem Equal_dereferences_non_Bool :
    (∀ (E : Executor) (self other : Nat) (cls rcls : Class) (context : Context),
      ClassInstance.HasMethod cls "__eq__" 1 = true →
        Equal E (.ClassInstance self cls) (.ClassInstance other rcls) context =
          match ClassInstance.Call E self cls "__eq__" [.ClassInstance other rcls] context with
          | (.ok (.Bool value), after) => (.ok value, after)
          | (.ok _, after) => (.abort .undefined_behaviour, after)
          | (.abort e, after) => (.abort e, after)) ∧
    (ClassInstance.Call (Execute 3) 5 classLoose "__eq__" [.ClassInstance 6 classLoose]
        looseContext).1 = .ok (.Number 3) ∧
    IsTrue (.Number 3) = true ∧
    Equal (Execute 3) (.ClassInstance 5 classLoose) (.ClassInstance 6 classLoose) looseContext =
      (.abort .undefined_behaviour, looseContext) := by
  refine ⟨?_, rfl, rfl, rfl⟩
  intro E self other cls rcls context h
  simp only [Equal, h, if_true, Run.andThen]
  rcases ClassInstance.Call E self cls "__eq__" [.ClassInstance other rcls] context with
    ⟨(result | e), after⟩
  · cases result <;> rfl
  · rfl

/-! ## Construction without a matching `__init__` -/

/-- C27: when no class of the chain has an `__init__` whose formal-parameter count is the
number of constructor arguments, executing the `NewInstance` node returns its instance and
leaves the whole state (closure, output, fields of every instance) as it was, whatever the
argument expressions are: none of them is executed and no field is set. -/
theorem NewInstance_without_matching_init (fuel new_instance : Nat) (cls : Class)
    (args : List Statement) (s : Closure × Context)
    (h : ∀ k ∈ cls.chain, ∀ m ∈ k.methods, m.name = "__init__" →
      m.formal_params.length ≠ args.length) :
    Execute (fuel + 1) (.NewInstance new_instance cls args) s =
      (.ok (.ClassInstance new_instance cls), s) := by
  have hh : ClassInstance.HasMethod cls "__init__" args.length = false := by
    cases hb : ClassInstance.HasMethod cls "__init__" args.length with
    | false => rfl
    | true =>
      obtain ⟨meth, hm, hname, hlen⟩ := (HasMethod_iff cls "__init__" args.length).mp hb
      obtain ⟨k, hk, hmem⟩ := GetMethod_mem_chain cls "__init__" meth hm
      exact absurd hlen (h k hk meth hmem hname)
  simp [Execute, hh, Run.ret]

/-- C27 at `Cell(<print>, <print>)`, where `__init__` takes one parameter: the instance is
returned and nothing is written. -/
theorem NewInstance_without_matching_init_witness :
    Execute 1 newCell startState = (.ok (.ClassInstance 7 classCell), startState) :=
  NewInstance_without_matching_init 0 7 classCell [.Print [], .Print []] startState
    (by simp [classCell, Class.chain, Class.methods, Method.name, Method.formal_params])

/-! ## Lemmas on string literals -/

theorem scanString_cons (q ch : Char) (rest s consumed : List Char) :
    scanString q (ch :: rest) s consumed =
      if ch = q then (.ok s, ch :: consumed, rest)
      else if ch = '\\' then
        match rest with
        | [] => (.abort .invalid_argument, ch :: consumed, [])
        | escaped_char :: after =>
          match unescape escaped_char with
          | some decoded => scanString q after (s ++ [decoded]) (escaped_char :: ch :: consumed)
          | none => (.abort .invalid_argument, ch :: consumed, rest)
      else if ch = '\n' || ch = '\r' then (.abort .invalid_argument, consumed, ch :: rest)
      else scanString q rest (s ++ [ch]) (ch :: consumed) := by
  cases rest <;> simp [scanString]

theorem scanString_pieces (q : Char) (hq : q = '"' ∨ q = '\'') :
    ∀ (body : List Piece), wellFormed q body = true → ∀ (tail s consumed : List Char),
      scanString q (render body ++ tail) s consumed =
        scanString q tail (s ++ decoded body) ((render body).reverse ++ consumed)
  | [], _, tail, s, consumed => by simp [render, decoded]
  | .plain c :: body, h, tail, s, consumed => by
    simp only [wellFormed, Bool.and_eq_true, bne_iff_ne, ne_eq] at h
    obtain ⟨⟨⟨⟨h1, h2⟩, h3⟩, h4⟩, h5⟩ := h
    have ih := scanString_pieces q hq body h5 tail (s ++ [c]) (c :: consumed)
    simp only [render, decoded, List.cons_append, scanString_cons, h1, h2, h3, h4, if_false,
      Bool.or_self, decide_False, Bool.false_eq_true, ih]
    simp
  | .escaped d :: body, h, tail, s, consumed => by
    simp only [wellFormed, Bool.and_eq_true] at h
    obtain ⟨h1, h5⟩ := h
    have ih := scanString_pieces q hq body h5 tail (s ++ [d]) (escapeCode d :: '\\' :: consumed)
    have hb : ¬ ('\\' = q) := by rcases hq with rfl | rfl <;> decide
    have hu : unescape (escapeCode d) = some d := by
      simp only [isEscaped, Bool.or_eq_true, decide_eq_true_eq] at h1
      rcases h1 with ((((rfl | rfl) | rfl) | rfl) | rfl) | rfl <;> decide
    simp only [render, decoded, List.cons_append, scanString_cons, hb, if_false, if_true, hu, ih]
    simp

theorem render_escape : ∀ (s : List Char),
    ∃ body, render body = escape s ∧ decoded body = s ∧
      ∀ q, (q = '"' ∨ q = '\'') → wellFormed q body = true
  | [] => ⟨[], rfl, rfl, fun _ _ => rfl⟩
  | c :: s => by
    obtain ⟨body, h1, h2, h3⟩ := render_escape s
    by_cases hc : isEscaped c = true
    · refine ⟨.escaped c :: body, ?_, ?_, ?_⟩
      · simp [render, escape, hc, h1]
      · simp [decoded, h2]
      · intro q hq
        simp [wellFormed, hc, h3 q hq]
    · refine ⟨.plain c :: body, ?_, ?_, ?_⟩
      · simp [render, escape, hc, h1]
      · simp [decoded, h2]
      · intro q hq
        have hc2 := hc
        simp only [isEscaped, Bool.or_eq_true, decide_eq_true_eq, not_or] at hc2
        obtain ⟨⟨⟨⟨⟨c1, c2⟩, c3⟩, c4⟩, c5⟩, c6⟩ := hc2
        have : c ≠ q := by rcases hq with rfl | rfl <;> assumption
        simp [wellFormed, this, c1, c3, c4, h3 q hq]

theorem scanString_unterminated (q : Char) (hq : q = '"' ∨ q = '\'') (tail : List Char)
    (h : unterminated tail = true) (s consumed : List Char) :
    (scanString q tail s consumed).1 = .abort .invalid_argument := by
  cases tail with
  | nil => simp [scanString]
  | cons c rest =>
    simp only [unterminated, Bool.or_eq_true, decide_eq_true_eq, Bool.and_eq_true] at h
    rcases h with (rfl | rfl) | ⟨rfl, h⟩
    · have : ¬ ('\n' = q) := by rcases hq with rfl | rfl <;> decide
      simp [scanString_cons, this]
    · have : ¬ ('\r' = q) := by rcases hq with rfl | rfl <;> decide
      simp [scanString_cons, this]
    · have hb : ¬ ('\\' = q) := by rcases hq with rfl | rfl <;> decide
      cases rest with
      | nil => simp [scanString_cons, hb]
      | cons e after =>
        have hu : unescape e = none := by
          simp only [Bool.and_eq_true, bne_iff_ne, ne_eq] at h
          simp [unescape, h]
        simp [scanString_cons, hb, hu]

/-- The first token of a text that starts with a quote is the one `ParseConstString` gives
on the characters after the quote. -/
theorem new_on_quote (q : Char) (hq : q = '"' ∨ q = '\'') (fuel : Nat) (text : List Char) :
    (∀ s consumed rest, scanString q text [] [q] = (.ok s, consumed, rest) →
      Lexer.new (fuel + 1) (q :: text) =
        (.ok (.String s),
          ⟨false, [], [.String s], false, false, 0, ⟨consumed, rest, false, false⟩⟩)) ∧
    (∀ e, (scanString q text [] [q]).1 = .abort e →
      (Lexer.new (fuel + 1) (q :: text)).1 = .abort e) := by
  constructor
  · intro s consumed rest h
    rcases hq with rfl | rfl <;>
    · simp only [Lexer.new, IStream.get, IStream.putback, GetTokenFromIstream, tokenLoop,
        ParseConstString]
      simp [h]
  · intro e h
    rcases hr : scanString q text [] [q] with ⟨(s | e2), consumed, rest⟩
    · simp [hr] at h
    · simp only [hr] at h
      cases h
      rcases hq with rfl | rfl <;>
      · simp only [Lexer.new, IStream.get, IStream.putback, GetTokenFromIstream, tokenLoop,
          ParseConstString]
        simp [hr]

theorem collectId_text : ∀ (bound : Nat) (input : IStream) (id : List Char)
    (current_char : Option Char), (∀ x ∈ id, endsId x = false) →
      ∀ x ∈ (collectId bound input id current_char).1, endsId x = false
  | 0, _, _, _, h => h
  | bound + 1, input, id, current_char, h => by
    simp only [collectId]
    rcases hg : input.get with ⟨(_ | read), after⟩
    · exact h
    · simp only
      split
      · rename_i hread
        apply collectId_text bound after (id ++ [read]) (some read)
        intro x hx
        rcases List.mem_append.mp hx with hx | hx
        · exact h x hx
        · simp only [List.mem_singleton] at hx
          subst hx
          simp only [Bool.and_eq_true, bne_iff_ne, ne_eq, Bool.not_eq_true'] at hread
          simp only [endsId, hread.1.1, hread.1.2, hread.2, decide_False, Bool.or_self]
      · exact h

theorem countSpaces_run (c : Char) (hc : c ≠ ' ') (rest : List Char) :
    ∀ (spaces bound : Nat) (consumed : List Char) (this_indent : Nat) (last : Option Char),
      spaces < bound →
        countSpaces bound ⟨consumed, List.replicate spaces ' ' ++ c :: rest, false, false⟩
            this_indent last =
          (this_indent + spaces, some c,
            ⟨c :: (List.replicate spaces ' ' ++ consumed), rest, false, false⟩)
  | 0, bound + 1, consumed, this_indent, last, _ => by
    simp [countSpaces, IStream.get, hc]
  | spaces + 1, bound + 1, consumed, this_indent, last, h => by
    have ih := countSpaces_run c hc rest spaces bound (' ' :: consumed) (this_indent + 1)
      (some ' ') (by omega)
    simp only [List.replicate_succ, List.cons_append, countSpaces, IStream.get,
      Bool.or_self, Bool.false_eq_true, if_false, if_true, ih]
    have : List.replicate spaces ' ' ++ ' ' :: consumed =
        ' ' :: (List.replicate spaces ' ' ++ consumed) := by
      rw [← List.cons_append, ← List.replicate_succ, List.replicate_succ', List.append_assoc]
      rfl
    rw [this]
    simp
    omega

/-! ## Indentation -/

/-- C22, as the code behaves: `ParseIndent` returns one `Indent` token for a line that is
indented deeper than `indent_`, however many spaces deeper, and adds 2 to `indent_`.  In the
text `if x:`, four spaces `y`, four spaces `z` one `Indent` has been returned before `y`
(whose line has 4 leading spaces, two units) and a second one before `z`, on a line that is
not indented deeper than the line of `y`. -/
theorem ParseIndent_returns_one_Indent :
    tokenStream 3 8 "if x:\n    y\n    z\n".toList =
      [.ok .If, .ok (.Id ['x']), .ok (.Char ':'), .ok .Newline, .ok .Indent, .ok (.Id ['y']),
       .ok .Newline, .ok .Indent, .ok (.Id ['z'])] ∧
    depth (tokenStream 3 4 "if x:\n    y\n    z\n".toList) = 1 ∧
    depth (tokenStream 3 7 "if x:\n    y\n    z\n".toList) = 2 ∧
    (∀ (G : Lexer → Lexed Token × Lexer) (lexer : Lexer) (consumed rest : List Char)
        (spaces : Nat) (c : Char), c ≠ ' ' → c ≠ '\n' → lexer.indent < spaces →
      ParseIndentWith G
          { lexer with input := ⟨consumed, List.replicate spaces ' ' ++ c :: rest, false, false⟩ } =
        (.ok .Indent,
          { lexer with
            is_need_to_parse_indent := false
            indent := lexer.indent + 2
            input := ⟨List.replicate spaces ' ' ++ consumed, c :: rest, false, false⟩ })) := by
  refine ⟨by decide, by decide, by decide, ?_⟩
  intro G lexer consumed rest spaces c hc hn hlt
  have hrun := countSpaces_run c hc rest spaces
    ((List.replicate spaces ' ' ++ c :: rest).length + 1) consumed 0 none (by simp; omega)
  simp only [ParseIndentWith, hrun, Nat.zero_add, hn, if_false, IStream.putback,
    Bool.false_eq_true, if_true]
  have h1 : ¬ (lexer.indent > spaces) := by omega
  simp [h1, hlt]

/-! ## Newline tokens -/

/-- C23, as the code behaves: on a text of empty lines or spaces only the loop of
`GetTokenFromIstream` reaches the end of the input with `is_new_line` false, and the first
token, the one the constructor stores, is `Newline`; empty lines before a first token are
skipped. -/
theorem first_token_is_Newline :
    tokenStream 1 0 ['\n'] = [.ok .Newline] ∧
    tokenStream 1 0 ['\n', '\n'] = [.ok .Newline] ∧
    tokenStream 1 0 [' ', ' '] = [.ok .Newline] ∧
    tokenStream 1 0 ['\n', 'x'] = [.ok (.Id ['x'])] := by
  decide

/-! ## Identifiers -/

/-- C25, as the code behaves: the text of an identifier ends before a space, a newline or a
character of `unexpected_symbols`, and `>` is not in that set.  So `a>b` is one `Id` token
with the text `a>b`, while `a > b` and `a<b` are three tokens. -/
theorem Id_text_may_contain_greater :
    tokenStream 1 0 "a>b".toList = [.ok (.Id "a>b".toList)] ∧
    tokenStream 1 2 "a > b".toList = [.ok (.Id ['a']), .ok (.Char '>'), .ok (.Id ['b'])] ∧
    tokenStream 1 2 "a<b".toList = [.ok (.Id ['a']), .ok (.Char '<'), .ok (.Id ['b'])] ∧
    endsId '>' = false ∧
    (∀ (bound : Nat) (input : IStream) (x : Char),
      x ∈ (collectId bound input [] none).1 → endsId x = false) := by
  refine ⟨by decide, by decide, by decide, by decide, ?_⟩
  intro bound input x hx
  exact collectId_text bound input [] none (fun _ h => absurd h (List.not_mem_nil _)) x hx

/-! ## String literals -/

/-- C26: for a quote character `q`, the first token of the text `q`, `escape(s)`, `q`
followed by any `rest` is `String(s)`, and exactly the literal has been read (`rest` is
what is left of the input).  A literal whose well-formed pieces are followed by the end of
the input, a raw newline or carriage return, or a backslash before another character than
the six escape codes, ends with the exception `invalid_argument`. -/
theorem ParseConstString_undoes_escape (q : Char) (hq : q = '"' ∨ q = '\'') (fuel : Nat) :
    (∀ (s rest : List Char),
      Lexer.new (fuel + 1) (q :: (escape s ++ q :: rest)) =
        (.ok (.String s),
          ⟨false, [], [.String s], false, false, 0,
            ⟨q :: ((escape s).reverse ++ [q]), rest, false, false⟩⟩)) ∧
    (∀ (body : List Piece) (tail : List Char), wellFormed q body = true →
      unterminated tail = true →
        (Lexer.new (fuel + 1) (q :: (render body ++ tail))).1 = .abort .invalid_argument) := by
  constructor
  · intro s rest
    obtain ⟨body, h1, h2, h3⟩ := render_escape s
    apply (new_on_quote q hq fuel _).1
    rw [← h1, scanString_pieces q hq body (h3 q hq), scanString_cons, h2]
    simp
  · intro body tail hbody htail
    apply (new_on_quote q hq fuel _).2
    rw [scanString_pieces q hq body hbody]
    exact scanString_unterminated q hq tail htail _ _

/-- C26 at the text `'a\nb' x` (with the two characters backslash `n` in the literal): the
first token is the string of `a`, a newline and `b`, and ` x` is left. -/
theorem ParseConstString_undoes_escape_witness :
    ('\'' = '"' ∨ '\'' = '\'') ∧
    Lexer.new 1 ['\'', 'a', '\\', 'n', 'b', '\'', ' ', 'x'] =
      (.ok (.String ['a', '\n', 'b']),
        ⟨false, [], [.String ['a', '\n', 'b']], false, false, 0,
          ⟨['\'', 'b', 'n', '\\', 'a', '\''], [' ', 'x'], false, false⟩⟩) :=
  ⟨Or.inr rfl, (ParseConstString_undoes_escape '\'' (Or.inr rfl) 0).1 ['a', '\n', 'b'] [' ', 'x']⟩

end mython
